import Mathlib

/-!
Verification of the alert/aggregation engine of the Pipedrive→Slack
notification scripts (`alert_checker.py`, `main.py`, `llm_reporter.py`).

The Python code is shallowly embedded: deal records become a `Deal`
structure whose duck-typed fields are tagged unions; ambient inputs
("today", "now", HTTP responses of the Slack/Gemini collaborators) become
explicit parameters; functions that can raise an uncaught exception return
`Except Unit _`.
-/

set_option maxRecDepth 4000

/-! ## Calendar dates (`datetime.date`) -/

/-- A calendar date as produced by `datetime.strptime(s, "%Y-%m-%d").date()`. -/
structure PyDate where
  year : Nat
  month : Nat
  day : Nat
deriving DecidableEq, Repr

/-- Gregorian leap-year rule used by `datetime`. -/
def isLeap (y : Nat) : Bool :=
  y % 4 = 0 && (y % 100 ≠ 0 || y % 400 = 0)

/-- Number of days in month `m` of year `y` (as validated by `datetime`). -/
def daysInMonth (y m : Nat) : Nat :=
  if m = 2 then (if isLeap y then 29 else 28)
  else if m = 4 ∨ m = 6 ∨ m = 9 ∨ m = 11 then 30
  else 31

/-- Days since 1970-01-01 of a civil date (standard days-from-civil
algorithm); subtracting two of these equals Python's `(a - b).days` for
`date` objects. -/
def daysFromCivil (y m d : Nat) : Int :=
  let y' := if m ≤ 2 then y - 1 else y
  let era := y' / 400
  let yoe := y' % 400
  let mp := (m + 9) % 12
  let doy := (153 * mp + 2) / 5 + (d - 1)
  let doe := yoe * 365 + yoe / 4 - yoe / 100 + doy
  (era * 146097 + doe : Int) - 719468

def PyDate.toDays (d : PyDate) : Int := daysFromCivil d.year d.month d.day

/-- `(a - b).days` for two Python `date`s. -/
def dateDiff (a b : PyDate) : Int := a.toDays - b.toDays

/-! ## `parse_date` (alert_checker.py:119, `datetime.strptime(s, "%Y-%m-%d")`)

CPython's `_strptime` compiles `%Y-%m-%d` to the anchored regex
`(?P<Y>\d\d\d\d)-(?P<m>1[0-2]|0[1-9]|[1-9])-(?P<d>3[01]|[12]\d|0[1-9]|[1-9])`
and requires the whole string to be consumed; the resulting triple is then
validated by the `datetime` constructor (year ≥ 1, day ≤ length of month).
The parser below follows that regex, including its tolerance for
non-zero-padded single-digit month/day. -/

def digitVal (c : Char) : Nat := c.toNat - 48

/-- The two-digit month alternatives `1[0-2]|0[1-9]` of the strptime regex. -/
def month2Valid (a b : Char) : Bool :=
  (a = '1' && (b = '0' || b = '1' || b = '2')) ||
  (a = '0' && b.isDigit && b ≠ '0')

/-- The two-digit day alternatives `3[01]|[12]\d|0[1-9]` of the strptime regex. -/
def day2Val (a b : Char) : Option Nat :=
  if a = '3' && (b = '0' || b = '1') then some (30 + digitVal b)
  else if (a = '1' || a = '2') && b.isDigit then some (digitVal a * 10 + digitVal b)
  else if a = '0' && b.isDigit && b ≠ '0' then some (digitVal b)
  else none

/-- Validation performed by the `datetime(year, month, day)` constructor. -/
def mkValidDate (y m d : Nat) : Option PyDate :=
  if 1 ≤ y ∧ d ≤ daysInMonth y m then some ⟨y, m, d⟩ else none

/-- Parse the day component (rest of the string after the second dash). -/
def parseDayPart (y m : Nat) : List Char → Option PyDate
  | [a] => if a.isDigit && a ≠ '0' then mkValidDate y m (digitVal a) else none
  | [a, b] =>
    match day2Val a b with
    | some d => mkValidDate y m d
    | none => none
  | _ => none

/-- Parse the month component followed by `-` and the day component. -/
def parseMonthDay (y : Nat) : List Char → Option PyDate
  | a :: '-' :: rest =>
    if a.isDigit && a ≠ '0' then parseDayPart y (digitVal a) rest else none
  | a :: b :: '-' :: rest =>
    if month2Valid a b then parseDayPart y (digitVal a * 10 + digitVal b) rest
    else none
  | _ => none

/-- `parse_date` (alert_checker.py:119). Empty / malformed strings yield
`none` (the Python logs at debug level and returns `None`). -/
def parse_date (s : String) : Option PyDate :=
  match s.data with
  | y1 :: y2 :: y3 :: y4 :: '-' :: rest =>
    if y1.isDigit && y2.isDigit && y3.isDigit && y4.isDigit then
      parseMonthDay
        (digitVal y1 * 1000 + digitVal y2 * 100 + digitVal y3 * 10 + digitVal y4)
        rest
    else none
  | _ => none

/-! ## `str.strip()` model (kernel-computable) -/

/-- Whitespace stripped by `str.strip()` (the ASCII subset relevant to
deal titles and webhook bodies). -/
def isSpaceChar (c : Char) : Bool :=
  c = ' ' || c = '\t' || c = '\n' || c = '\r' || c = '\x0b' || c = '\x0c'

def dropLeadingSpaces : List Char → List Char
  | [] => []
  | c :: cs => if isSpaceChar c then dropLeadingSpaces cs else c :: cs

/-- `s.strip()`: drop whitespace from both ends. -/
def pyStrip (s : String) : String :=
  ⟨dropLeadingSpaces (dropLeadingSpaces s.data.reverse).reverse⟩

/-! ## Deal records and custom fields -/


/-- Value found in a deal dict under the configured custom-field key:
absent key, a string, a dict carrying a `value` entry (the Python applies
`str(...)` to it, modelled by the carried string), or any other truthy
non-string non-dict object (which `extract_custom_field` rejects). -/
inductive FieldVal
  | missing
  | vStr (s : String)
  | vDictVal (s : String)
  | vOther
deriving DecidableEq, Repr

/-- The `title` entry of a deal dict: key absent (`deal.get('title','')`
falls back to `''`), an explicit `None` value (crashes `.strip()`), or a
string. -/
inductive TitleVal
  | absent
  | null
  | str (s : String)
deriving DecidableEq, Repr

/-- The `stage_change_time` entry of a deal dict: absent/falsy, a truthy
non-string value (`.replace` raises `AttributeError`, which is caught), or
a string. -/
inductive TimeVal
  | missing
  | nonString
  | tstr (s : String)
deriving DecidableEq, Repr

/-- A deal record, restricted to the fields the engine reads. `handover`
is the value under `HANDOVER_DATE_FIELD_KEY`, `threadTs` the value under
`SLACK_THREAD_TS_FIELD_KEY`. -/
structure Deal where
  id : Nat
  title : TitleVal
  stage_id : Option Nat
  stage_change_time : TimeVal
  handover : FieldVal
  threadTs : FieldVal
deriving DecidableEq, Repr

/-- `extract_custom_field` (alert_checker.py:94) applied to the value
stored under the requested key: absent or falsy values give `None`; a
non-empty string is returned as-is; a dict with a `value` entry is
stringified; any other truthy value falls through to `None`. -/
def extract_custom_field : FieldVal → Option String
  | .missing => none
  | .vStr s => if s = "" then none else some s
  | .vDictVal s => some s
  | .vOther => none

/-! ## Alert events -/

/-- Extra keys the checkers add to a copied deal dict: `alert_type`
(deadline/stagnation) together with `days_until`+`handover_date`, or
`stagnation_days`. -/
inductive AlertInfo
  | deadline (days_until : Int) (handover_date : PyDate)
  | stagnation (days : Int)
deriving DecidableEq, Repr

/-- An alert event: the copied deal plus the added keys. -/
structure Alert where
  deal : Deal
  info : AlertInfo
deriving DecidableEq, Repr

/-! ## Deadline classifier (`check_deadline_alerts`, alert_checker.py:140) -/

/-- Deadline trigger condition of alert_checker.py:166:
`days_until in [3, 1, 0] or days_until < 0`. -/
def deadlineTrigger (du : Int) : Prop := du = 3 ∨ du = 1 ∨ du = 0 ∨ du < 0

instance (du : Int) : Decidable (deadlineTrigger du) := by
  unfold deadlineTrigger; infer_instance

/-- Per-deal body of the `check_deadline_alerts` loop: extract the
handover custom field, parse it, and emit an alert when the trigger
condition holds. -/
def deadlineAlertFor (today : PyDate) (d : Deal) : Option Alert :=
  (extract_custom_field d.handover).bind fun s =>
    (parse_date s).bind fun T =>
      if deadlineTrigger (dateDiff T today) then
        some ⟨d, .deadline (dateDiff T today) T⟩
      else none

/-- `check_deadline_alerts` (alert_checker.py:140): the loop appends the
alert of each triggering deal in source order; `today` is
`datetime.now().date()` passed explicitly. -/
def check_deadline_alerts (today : PyDate) (deals : List Deal) : List Alert :=
  deals.filterMap (deadlineAlertFor today)

theorem deadlineAlertFor_eq_some (today : PyDate) (x : Deal) (a : Alert) :
    deadlineAlertFor today x = some a ↔
      ∃ s T, extract_custom_field x.handover = some s ∧ parse_date s = some T ∧
        deadlineTrigger (dateDiff T today) ∧
        a = ⟨x, .deadline (dateDiff T today) T⟩ := by
  simp only [deadlineAlertFor, Option.bind_eq_some]
  constructor
  · rintro ⟨s, hs, T, hT, hif⟩
    split at hif
    · next hc =>
      injection hif with h
      exact ⟨s, T, hs, hT, hc, h.symm⟩
    · exact absurd hif (by simp)
  · rintro ⟨s, T, hs, hT, hc, rfl⟩
    exact ⟨s, hs, T, hT, by rw [if_pos hc]⟩

/-- Claim C1: for every list of deals and current date, the deadline
classifier emits an alert for a deal iff its handover custom field
extracts to a string that parses as a `YYYY-MM-DD` date `T` with
`(T - today).days ∈ {3,1,0}` or `< 0`, and every alert emitted for the
deal carries exactly the signed metric `(T - today).days`. -/
theorem c1_deadline_classifier (today : PyDate) (deals : List Deal) (d : Deal)
    (hd : d ∈ deals) :
    ((∃ a, a ∈ check_deadline_alerts today deals ∧ a.deal = d) ↔
      ∃ s T, extract_custom_field d.handover = some s ∧ parse_date s = some T ∧
        deadlineTrigger (dateDiff T today)) ∧
    (∀ a, a ∈ check_deadline_alerts today deals → a.deal = d →
      ∀ s T, extract_custom_field d.handover = some s → parse_date s = some T →
        a.info = .deadline (dateDiff T today) T) := by
  constructor
  · constructor
    · rintro ⟨a, ha, hdeal⟩
      rw [check_deadline_alerts, List.mem_filterMap] at ha
      obtain ⟨d', _, hf⟩ := ha
      rw [deadlineAlertFor_eq_some] at hf
      obtain ⟨s, T, hs, hT, hc, rfl⟩ := hf
      obtain rfl : d' = d := hdeal
      exact ⟨s, T, hs, hT, hc⟩
    · rintro ⟨s, T, hs, hT, hc⟩
      refine ⟨⟨d, .deadline (dateDiff T today) T⟩, ?_, rfl⟩
      rw [check_deadline_alerts, List.mem_filterMap]
      exact ⟨d, hd, (deadlineAlertFor_eq_some today d _).2 ⟨s, T, hs, hT, hc, rfl⟩⟩
  · intro a ha hdeal s T hs hT
    rw [check_deadline_alerts, List.mem_filterMap] at ha
    obtain ⟨d', _, hf⟩ := ha
    rw [deadlineAlertFor_eq_some] at hf
    obtain ⟨s', T', hs', hT', _, rfl⟩ := hf
    obtain rfl : d' = d := hdeal
    obtain rfl : s = s' := by
      have h := hs.symm.trans hs'
      injection h
    obtain rfl : T = T' := by
      have h := hT.symm.trans hT'
      injection h
    rfl

/-- Witness for C1: a deal whose handover date is three days after
"today" (2024-05-10 vs 2024-05-13) is alerted with metric 3. -/
theorem c1_deadline_classifier_witness :
    ((∃ a, a ∈ check_deadline_alerts ⟨2024, 5, 10⟩
        [⟨7, .str "Acme", some 1, .missing, .vStr "2024-05-13", .missing⟩] ∧
        a.deal = ⟨7, .str "Acme", some 1, .missing, .vStr "2024-05-13", .missing⟩) ↔
      ∃ s T, extract_custom_field (FieldVal.vStr "2024-05-13") = some s ∧
        parse_date s = some T ∧ deadlineTrigger (dateDiff T ⟨2024, 5, 10⟩)) ∧
    (∀ a, a ∈ check_deadline_alerts ⟨2024, 5, 10⟩
        [⟨7, .str "Acme", some 1, .missing, .vStr "2024-05-13", .missing⟩] →
      a.deal = ⟨7, .str "Acme", some 1, .missing, .vStr "2024-05-13", .missing⟩ →
      ∀ s T, extract_custom_field (FieldVal.vStr "2024-05-13") = some s →
        parse_date s = some T →
        a.info = .deadline (dateDiff T ⟨2024, 5, 10⟩) T) :=
  c1_deadline_classifier ⟨2024, 5, 10⟩ _ _ (by simp)

/-! ## `datetime.fromisoformat` model (for `stage_change_time`)

`check_stagnation_alerts` (alert_checker.py:177) parses
`stage_change_time_str.replace('Z', '+00:00')` with
`datetime.fromisoformat`. The model follows CPython's pre-3.11
`_parse_isoformat_date` / `_parse_isoformat_time`: a strict
`YYYY-MM-DD` date, an arbitrary single separator character, a time
`HH[:MM[:SS[.fff или .ffffff]]]`, and an optional UTC offset introduced by
`+`/`-` written `HH:MM` or `HH:MM:SS`. A timestamp without an offset
parses to a *naive* datetime (offset `none`). -/

/-- A parsed `datetime`: calendar date, time of day, and optional UTC
offset in seconds (`none` = offset-naive). -/
structure PyDateTime where
  date : PyDate
  hour : Nat
  minute : Nat
  second : Nat
  micro : Nat
  offset : Option Int
deriving DecidableEq, Repr

/-- `s.replace('Z', '+00:00')` (alert_checker.py:197). -/
def replaceZ (s : String) : String :=
  ⟨s.data.flatMap fun c => if c = 'Z' then ['+', '0', '0', ':', '0', '0'] else [c]⟩

/-- Two mandatory digits. -/
def parse2 : List Char → Option (Nat × List Char)
  | a :: b :: rest =>
    if a.isDigit && b.isDigit then some (digitVal a * 10 + digitVal b, rest)
    else none
  | _ => none

def digitsToNat (cs : List Char) : Nat :=
  cs.foldl (fun acc c => acc * 10 + digitVal c) 0

/-- Strict `YYYY-MM-DD` prefix of `_parse_isoformat_date`, validated by the
`datetime` constructor. -/
def parseIsoDate (cs : List Char) : Option (PyDate × List Char) :=
  match cs with
  | y1 :: y2 :: y3 :: y4 :: '-' :: m1 :: m2 :: '-' :: d1 :: d2 :: rest =>
    if y1.isDigit && y2.isDigit && y3.isDigit && y4.isDigit &&
        m1.isDigit && m2.isDigit && d1.isDigit && d2.isDigit then
      let y := digitVal y1 * 1000 + digitVal y2 * 100 + digitVal y3 * 10 + digitVal y4
      let m := digitVal m1 * 10 + digitVal m2
      let d := digitVal d1 * 10 + digitVal d2
      if 1 ≤ y ∧ 1 ≤ m ∧ m ≤ 12 ∧ 1 ≤ d ∧ d ≤ daysInMonth y m then
        some (⟨y, m, d⟩, rest)
      else none
    else none
  | _ => none

/-- Split the time substring at the first `+`/`-`, which introduces the
UTC offset (CPython locates the sign inside the time portion). -/
def splitTz : List Char → List Char × Option (Char × List Char)
  | [] => ([], none)
  | c :: rest =>
    if c = '+' || c = '-' then ([], some (c, rest))
    else
      let (t, z) := splitTz rest
      (c :: t, z)

/-- `HH[:MM[:SS[.fff|.ffffff]]]` with the fraction required to be exactly
3 or 6 digits (pre-3.11 `_parse_hh_mm_ss_ff`). Returns
(hour, minute, second, microsecond). -/
def parseTimeComps (cs : List Char) : Option (Nat × Nat × Nat × Nat) :=
  match parse2 cs with
  | none => none
  | some (h, r1) =>
    match r1 with
    | [] => some (h, 0, 0, 0)
    | ':' :: r2 =>
      match parse2 r2 with
      | none => none
      | some (m, r3) =>
        match r3 with
        | [] => some (h, m, 0, 0)
        | ':' :: r4 =>
          match parse2 r4 with
          | none => none
          | some (s, r5) =>
            match r5 with
            | [] => some (h, m, s, 0)
            | '.' :: r6 =>
              if r6.length = 3 && r6.all Char.isDigit then
                some (h, m, s, digitsToNat r6 * 1000)
              else if r6.length = 6 && r6.all Char.isDigit then
                some (h, m, s, digitsToNat r6)
              else none
            | _ => none
        | _ => none
    | _ => none

/-- Offset magnitude `HH:MM` or `HH:MM:SS` in seconds; the `timezone`
constructor requires a magnitude strictly below 24 hours. -/
def parseTzSeconds (zs : List Char) : Option Nat :=
  match zs with
  | [a, b, ':', c, d] =>
    if a.isDigit && b.isDigit && c.isDigit && d.isDigit then
      let t := (digitVal a * 10 + digitVal b) * 3600 + (digitVal c * 10 + digitVal d) * 60
      if t < 86400 then some t else none
    else none
  | [a, b, ':', c, d, ':', e, f] =>
    if a.isDigit && b.isDigit && c.isDigit && d.isDigit && e.isDigit && f.isDigit then
      let t := (digitVal a * 10 + digitVal b) * 3600 + (digitVal c * 10 + digitVal d) * 60 +
        (digitVal e * 10 + digitVal f)
      if t < 86400 then some t else none
    else none
  | _ => none

/-- `datetime.fromisoformat`. -/
def fromisoformat (s : String) : Option PyDateTime :=
  match parseIsoDate s.data with
  | none => none
  | some (dt, []) => some ⟨dt, 0, 0, 0, 0, none⟩
  | some (dt, _sep :: tcs) =>
    let (t, z) := splitTz tcs
    match parseTimeComps t with
    | none => none
    | some (h, mi, se, mic) =>
      if h ≤ 23 ∧ mi ≤ 59 ∧ se ≤ 59 then
        match z with
        | none => some ⟨dt, h, mi, se, mic, none⟩
        | some (sgn, zs) =>
          match parseTzSeconds zs with
          | none => none
          | some off =>
            some ⟨dt, h, mi, se, mic, some (if sgn = '-' then -(off : Int) else (off : Int))⟩
      else none

/-- Microseconds since the Unix epoch of an offset-aware datetime
(`offSeconds` is its UTC offset in seconds). Differences of these match
Python's `timedelta` between aware datetimes. -/
def PyDateTime.epochMicros (dt : PyDateTime) (offSeconds : Int) : Int :=
  dt.date.toDays * 86400000000 +
    ((dt.hour * 3600 + dt.minute * 60 + dt.second : Nat) : Int) * 1000000 +
    (dt.micro : Int) - offSeconds * 1000000

/-! ## Stagnation classifier (`check_stagnation_alerts`, alert_checker.py:177) -/

/-- Stagnation trigger condition of alert_checker.py:201:
`days_in_stage in [3, 7, 14, 30]`. -/
def stagTrigger (days : Int) : Prop :=
  days = 3 ∨ days = 7 ∨ days = 14 ∨ days = 30

instance (days : Int) : Decidable (stagTrigger days) := by
  unfold stagTrigger; infer_instance

/-- Outcome of one iteration of the `check_stagnation_alerts` loop:
the deal is silently skipped, an alert is appended, or the iteration
raises an uncaught `TypeError` (subtracting an offset-naive
`stage_change_time` from the aware `now`; the `except` clause catches only
`ValueError` and `AttributeError`). -/
inductive StagStep
  | skip
  | crash
  | alert (a : Alert)
deriving DecidableEq, Repr

/-- `days_in_stage`: `timedelta.days` of `now - stage_change_time`, which
is floor division of the total duration, hence `Int.fdiv`. -/
def stagDays (now : Int) (dt : PyDateTime) (off : Int) : Int :=
  Int.fdiv (now - dt.epochMicros off) 86400000000

/-- Tail of the loop iteration once the timestamp parsed, split on the
parsed datetime's offset: offset-naive subtraction raises `TypeError`. -/
def stagStepAware (now : Int) (d : Deal) (dt : PyDateTime) : Option Int → StagStep
  | none => .crash
  | some off =>
    if stagTrigger (stagDays now dt off) then
      .alert ⟨d, .stagnation (stagDays now dt off)⟩
    else .skip

/-- Loop iteration tail after `fromisoformat`: a parse failure
(`ValueError`) is caught and skipped. -/
def stagStepParsed (now : Int) (d : Deal) : Option PyDateTime → StagStep
  | none => .skip
  | some dt => stagStepAware now d dt dt.offset

/-- Loop iteration on a string-valued `stage_change_time` (an empty string
is falsy and skipped before parsing). -/
def stagStepStr (now : Int) (d : Deal) (s : String) : StagStep :=
  if s = "" then .skip else stagStepParsed now d (fromisoformat (replaceZ s))

/-- Loop iteration split on the shape of the `stage_change_time` entry
(missing/falsy skips; a truthy non-string raises `AttributeError` at
`.replace`, which the `except` clause catches and skips). -/
def stagStepTime (now : Int) (d : Deal) : TimeVal → StagStep
  | .missing => .skip
  | .nonString => .skip
  | .tstr s => stagStepStr now d s

/-- One iteration of the `check_stagnation_alerts` loop over deal `d`,
with `now` = `datetime.now(timezone.utc)` in epoch microseconds. -/
def stagStep (now : Int) (d : Deal) : StagStep :=
  stagStepTime now d d.stage_change_time

/-- `check_stagnation_alerts` (alert_checker.py:177). A `.crash` step
propagates out of the function (nothing is returned), modelled as
`.error`. -/
def check_stagnation_alerts (now : Int) : List Deal → Except Unit (List Alert)
  | [] => .ok []
  | d :: rest =>
    match stagStep now d with
    | .skip => check_stagnation_alerts now rest
    | .crash => .error ()
    | .alert a =>
      match check_stagnation_alerts now rest with
      | .error e => .error e
      | .ok l => .ok (a :: l)

theorem stagStep_eq_alert (now : Int) (d : Deal) (a : Alert) :
    stagStep now d = .alert a ↔
      ∃ s dt off, d.stage_change_time = .tstr s ∧ s ≠ "" ∧
        fromisoformat (replaceZ s) = some dt ∧ dt.offset = some off ∧
        stagTrigger (stagDays now dt off) ∧
        a = ⟨d, .stagnation (stagDays now dt off)⟩ := by
  rw [stagStep]
  cases h : d.stage_change_time with
  | missing => simp [stagStepTime]
  | nonString => simp [stagStepTime]
  | tstr s =>
    simp only [stagStepTime, stagStepStr, TimeVal.tstr.injEq]
    by_cases hs : s = ""
    · simp [hs]
    · rw [if_neg hs]
      cases hp : fromisoformat (replaceZ s) with
      | none =>
        simp only [stagStepParsed]
        constructor
        · intro hh; cases hh
        · rintro ⟨s', dt, off, hts, _, hp', _⟩
          obtain rfl : s = s' := hts
          rw [hp] at hp'; cases hp'
      | some dt =>
        simp only [stagStepParsed]
        cases ho : dt.offset with
        | none =>
          simp only [stagStepAware]
          constructor
          · intro hh; cases hh
          · rintro ⟨s', dt', off, hts, _, hp', ho', _⟩
            obtain rfl : s = s' := hts
            rw [hp] at hp'
            obtain rfl : dt = dt' := by injection hp'
            rw [ho] at ho'; cases ho'
        | some off =>
          simp only [stagStepAware]
          by_cases ht : stagTrigger (stagDays now dt off)
          · rw [if_pos ht]
            constructor
            · intro hh
              injection hh with hh
              exact ⟨s, dt, off, rfl, hs, hp, ho, ht, hh.symm⟩
            · rintro ⟨s', dt', off', hts, _, hp', ho', _, rfl⟩
              obtain rfl : s = s' := hts
              rw [hp] at hp'
              obtain rfl : dt = dt' := by injection hp'
              rw [ho] at ho'
              obtain rfl : off = off' := by injection ho'
              rfl
          · rw [if_neg ht]
            constructor
            · intro hh; cases hh
            · rintro ⟨s', dt', off', hts, _, hp', ho', ht', rfl⟩
              obtain rfl : s = s' := hts
              rw [hp] at hp'
              obtain rfl : dt = dt' := by injection hp'
              rw [ho] at ho'
              obtain rfl : off = off' := by injection ho'
              exact absurd ht' ht

theorem stagStep_eq_crash (now : Int) (d : Deal) :
    stagStep now d = .crash ↔
      ∃ s dt, d.stage_change_time = .tstr s ∧ s ≠ "" ∧
        fromisoformat (replaceZ s) = some dt ∧ dt.offset = none := by
  rw [stagStep]
  cases h : d.stage_change_time with
  | missing => simp [stagStepTime]
  | nonString => simp [stagStepTime]
  | tstr s =>
    simp only [stagStepTime, stagStepStr, TimeVal.tstr.injEq]
    by_cases hs : s = ""
    · simp [hs]
    · rw [if_neg hs]
      cases hp : fromisoformat (replaceZ s) with
      | none =>
        simp only [stagStepParsed]
        constructor
        · intro hh; cases hh
        · rintro ⟨s', dt, hts, _, hp', _⟩
          obtain rfl : s = s' := hts
          rw [hp] at hp'; cases hp'
      | some dt =>
        simp only [stagStepParsed]
        cases ho : dt.offset with
        | none =>
          simp only [stagStepAware]
          constructor
          · intro _; exact ⟨s, dt, rfl, hs, hp, ho⟩
          · intro _; trivial
        | some off =>
          simp only [stagStepAware]
          constructor
          · intro hh
            by_cases ht : stagTrigger (stagDays now dt off)
            · rw [if_pos ht] at hh; cases hh
            · rw [if_neg ht] at hh; cases hh
          · rintro ⟨s', dt', hts, _, hp', ho'⟩
            obtain rfl : s = s' := hts
            rw [hp] at hp'
            obtain rfl : dt = dt' := by injection hp'
            rw [ho] at ho'; cases ho'

theorem check_stagnation_ok (now : Int) (deals : List Deal)
    (h : ∀ d ∈ deals, stagStep now d ≠ .crash) :
    ∃ l, check_stagnation_alerts now deals = .ok l ∧
      ∀ a, a ∈ l ↔ ∃ d ∈ deals, stagStep now d = .alert a := by
  induction deals with
  | nil => exact ⟨[], rfl, by simp⟩
  | cons d rest ih =>
    have hd := h d (by simp)
    have hr : ∀ x ∈ rest, stagStep now x ≠ .crash := fun x hx => h x (by simp [hx])
    obtain ⟨l, hl, hmem⟩ := ih hr
    cases hstep : stagStep now d with
    | skip =>
      refine ⟨l, ?_, ?_⟩
      · rw [check_stagnation_alerts, hstep, hl]
      · intro a
        rw [hmem a]
        constructor
        · rintro ⟨x, hx, hax⟩; exact ⟨x, by simp [hx], hax⟩
        · rintro ⟨x, hx, hax⟩
          rcases List.mem_cons.1 hx with rfl | hx'
          · rw [hstep] at hax; cases hax
          · exact ⟨x, hx', hax⟩
    | crash => exact absurd hstep hd
    | alert a0 =>
      refine ⟨a0 :: l, ?_, ?_⟩
      · rw [check_stagnation_alerts, hstep, hl]
      · intro a
        simp only [List.mem_cons]
        constructor
        · rintro (rfl | hal)
          · exact ⟨d, by simp, hstep⟩
          · obtain ⟨x, hx, hax⟩ := (hmem a).1 hal
            exact ⟨x, by simp [hx], hax⟩
        · rintro ⟨x, hx, hax⟩
          rcases hx with rfl | hx'
          · rw [hstep] at hax
            injection hax with hh
            exact Or.inl hh.symm
          · exact Or.inr ((hmem a).2 ⟨x, hx', hax⟩)

theorem check_stagnation_crash (now : Int) (deals : List Deal)
    (h : ∃ d ∈ deals, stagStep now d = .crash) :
    check_stagnation_alerts now deals = .error () := by
  induction deals with
  | nil => simp at h
  | cons d rest ih =>
    obtain ⟨x, hx, hax⟩ := h
    rcases List.mem_cons.1 hx with rfl | hx'
    · rw [check_stagnation_alerts, hax]
    · have herr := ih ⟨x, hx', hax⟩
      cases hstep : stagStep now d with
      | skip => rw [check_stagnation_alerts, hstep, herr]
      | crash => rw [check_stagnation_alerts, hstep]
      | alert a0 => rw [check_stagnation_alerts, hstep, herr]

/-- Claim C2, counterexample: the deal's `stage_change_time`
`"2021-01-01T00:00:00"` parses under `fromisoformat` (it is a valid
ISO-8601 timestamp, merely offset-naive) and the duration from it to "now"
(2021-01-04T12:00:00Z) floors to exactly 3 days, so the claim requires a
stagnation event to be emitted; the code instead raises an uncaught
`TypeError` when subtracting the naive timestamp from the aware `now`
(the `except` clause catches only `ValueError`/`AttributeError`), so no
event list is produced at all. -/
theorem c2_stagnation_counterexample :
    fromisoformat (replaceZ "2021-01-01T00:00:00") =
      some ⟨⟨2021, 1, 1⟩, 0, 0, 0, 0, none⟩ ∧
    stagDays 1609761600000000 ⟨⟨2021, 1, 1⟩, 0, 0, 0, 0, none⟩ 0 = 3 ∧
    check_stagnation_alerts 1609761600000000
      [⟨1, .str "Acme", some 1, .tstr "2021-01-01T00:00:00", .missing, .missing⟩] =
      .error () :=
  ⟨rfl, rfl, rfl⟩

/-- Claim C2, amended: provided no deal carries a *parseable offset-naive*
`stage_change_time`, the stagnation classifier returns the alert list and
emits an event for a deal iff its `stage_change_time` is a non-empty
string that `fromisoformat` (after `Z → +00:00`) parses to an
offset-aware timestamp `S` with `floor((now - S) in days) ∈ {3,7,14,30}`,
the metric being exactly that floor; missing, non-string, empty or
unparseable timestamps silently skip the deal; a parseable offset-naive
timestamp instead makes the whole check raise an uncaught error. -/
theorem c2_stagnation_classifier (now : Int) (deals : List Deal) :
    ((∀ d ∈ deals, stagStep now d ≠ .crash) →
      ∃ l, check_stagnation_alerts now deals = .ok l ∧
        ∀ a, a ∈ l ↔ ∃ d ∈ deals,
          ∃ s dt off, d.stage_change_time = .tstr s ∧ s ≠ "" ∧
            fromisoformat (replaceZ s) = some dt ∧ dt.offset = some off ∧
            stagTrigger (stagDays now dt off) ∧
            a = ⟨d, .stagnation (stagDays now dt off)⟩) ∧
    ((∃ d ∈ deals, stagStep now d = .crash) →
      check_stagnation_alerts now deals = .error ()) ∧
    (∀ d, stagStep now d = .crash ↔
      ∃ s dt, d.stage_change_time = .tstr s ∧ s ≠ "" ∧
        fromisoformat (replaceZ s) = some dt ∧ dt.offset = none) := by
  refine ⟨?_, check_stagnation_crash now deals, stagStep_eq_crash now⟩
  intro h
  obtain ⟨l, hl, hm⟩ := check_stagnation_ok now deals h
  refine ⟨l, hl, fun a => (hm a).trans ?_⟩
  constructor
  · rintro ⟨d, hd, ha⟩
    exact ⟨d, hd, (stagStep_eq_alert now d a).1 ha⟩
  · rintro ⟨d, hd, ha⟩
    exact ⟨d, hd, (stagStep_eq_alert now d a).2 ha⟩

/-- Witness for C2 (amended): a single deal whose `stage_change_time` is
the aware timestamp `"2021-01-01T00:00:00Z"`, checked 3.5 days later. -/
theorem c2_stagnation_classifier_witness :
    ∃ l, check_stagnation_alerts 1609761600000000
        [⟨1, .str "Acme", some 1, .tstr "2021-01-01T00:00:00Z", .missing, .missing⟩] =
        .ok l ∧
      ∀ a, a ∈ l ↔ ∃ d ∈
          [⟨1, .str "Acme", some 1, .tstr "2021-01-01T00:00:00Z", .missing, .missing⟩],
        ∃ s dt off, Deal.stage_change_time d = .tstr s ∧ s ≠ "" ∧
          fromisoformat (replaceZ s) = some dt ∧ dt.offset = some off ∧
          stagTrigger (stagDays 1609761600000000 dt off) ∧
          a = ⟨d, .stagnation (stagDays 1609761600000000 dt off)⟩ :=
  (c2_stagnation_classifier 1609761600000000
    [⟨1, .str "Acme", some 1, .tstr "2021-01-01T00:00:00Z", .missing, .missing⟩]).1
    (by decide)

/-! ## Alert message rendering (alert_checker.py:240, 280) -/

/-- `deal.get('title', '不明')` rendered into an f-string: an absent key
gives the default, a `None` value renders as the string `"None"`. -/
def titleText : TitleVal → String
  | .absent => "不明"
  | .null => "None"
  | .str s => s

/-- `get_stage_name(stage_id) if stage_id else '不明'`: the stage-name
lookup is an external collaborator passed as `stageNameOf`; a missing or
zero (falsy) `stage_id` short-circuits to the default. -/
def stageNameText (stageNameOf : Nat → String) : Option Nat → String
  | none => "不明"
  | some i => if i = 0 then "不明" else stageNameOf i

/-- Urgency glyph of `format_deadline_alert_message`
(alert_checker.py:256-267). -/
def deadlineUrgency (du : Int) : String :=
  if du < 0 then "🚨"
  else if du = 0 then "⚠️"
  else if du = 1 then "⚠️"
  else "📅"

/-- Status text of `format_deadline_alert_message`
(alert_checker.py:256-267). -/
def deadlineStatus (du : Int) : String :=
  if du < 0 then "期限超過（" ++ toString du.natAbs ++ "日経過）"
  else if du = 0 then "本日が期限"
  else if du = 1 then "明日が期限"
  else toString du ++ "日後が期限"

/-- `format_deadline_alert_message` (alert_checker.py:240): the message
template with urgency, status, title, handover date and stage name
interpolated. -/
def format_deadline_alert_message (title : String) (du : Int)
    (handover stage : String) : String :=
  deadlineUrgency du ++ " *期限アラート: " ++ deadlineStatus du ++
    "*\n\n企業名: " ++ title ++ "\n引き渡し希望日: " ++ handover ++
    "\n現在のステージ: " ++ stage ++ "\n\n対応をご確認ください。"

/-- Urgency glyph of `format_stagnation_alert_message`
(alert_checker.py:295-300). -/
def stagnationUrgency (days : Int) : String :=
  if days ≥ 30 then "🚨"
  else if days ≥ 14 then "⚠️"
  else "📌"

/-- `format_stagnation_alert_message` (alert_checker.py:280). -/
def format_stagnation_alert_message (title : String) (days : Int)
    (stage : String) : String :=
  stagnationUrgency days ++ " *滞留アラート: " ++ toString days ++
    "日間同じステージ*\n\n企業名: " ++ title ++ "\n現在のステージ: " ++ stage ++
    "\n滞留期間: " ++ toString days ++ "日間\n\n次のアクションをご検討ください。"

/-- `handover_date.strftime('%Y-%m-%d')` for the dates stored by the
deadline checker. -/
def pad2 (n : Nat) : String := if n < 10 then "0" ++ toString n else toString n

def pad4 (n : Nat) : String :=
  if n < 10 then "000" ++ toString n
  else if n < 100 then "00" ++ toString n
  else if n < 1000 then "0" ++ toString n
  else toString n

def formatDate (d : PyDate) : String :=
  pad4 d.year ++ "-" ++ pad2 d.month ++ "-" ++ pad2 d.day

/-- Claim C7: the deadline message's urgency marker and status text are
keyed by the sign of the metric `days_until`: negative → high-urgency
glyph and overdue status carrying the absolute day count; `0` → due
today; `1` → due tomorrow; `> 1` → low-urgency glyph and due-in-N-days
status; and the full message interpolates exactly those two pieces. -/
theorem c7_deadline_rendering (du : Int) :
    (du < 0 → deadlineUrgency du = "🚨" ∧
      deadlineStatus du = "期限超過（" ++ toString du.natAbs ++ "日経過）") ∧
    (du = 0 → deadlineUrgency du = "⚠️" ∧ deadlineStatus du = "本日が期限") ∧
    (du = 1 → deadlineUrgency du = "⚠️" ∧ deadlineStatus du = "明日が期限") ∧
    (1 < du → deadlineUrgency du = "📅" ∧
      deadlineStatus du = toString du ++ "日後が期限") ∧
    (∀ title handover stage, format_deadline_alert_message title du handover stage =
      deadlineUrgency du ++ " *期限アラート: " ++ deadlineStatus du ++
        "*\n\n企業名: " ++ title ++ "\n引き渡し希望日: " ++ handover ++
        "\n現在のステージ: " ++ stage ++ "\n\n対応をご確認ください。") := by
  refine ⟨?_, ?_, ?_, ?_, fun _ _ _ => rfl⟩
  · intro h
    exact ⟨by rw [deadlineUrgency, if_pos h], by rw [deadlineStatus, if_pos h]⟩
  · intro h; subst h; exact ⟨by decide, by decide⟩
  · intro h; subst h; exact ⟨by decide, by decide⟩
  · intro h
    constructor
    · rw [deadlineUrgency, if_neg (by omega), if_neg (by omega), if_neg (by omega)]
    · rw [deadlineStatus, if_neg (by omega), if_neg (by omega), if_neg (by omega)]

/-- Witness for C7 at the metrics the spec names: `-2`, `0`, `1`, `5`. -/
theorem c7_deadline_rendering_witness :
    (deadlineUrgency (-2) = "🚨" ∧
      deadlineStatus (-2) = "期限超過（" ++ toString (Int.natAbs (-2)) ++ "日経過）") ∧
    (deadlineUrgency 0 = "⚠️" ∧ deadlineStatus 0 = "本日が期限") ∧
    (deadlineUrgency 1 = "⚠️" ∧ deadlineStatus 1 = "明日が期限") ∧
    (deadlineUrgency 5 = "📅" ∧ deadlineStatus 5 = toString (5 : Int) ++ "日後が期限") :=
  ⟨(c7_deadline_rendering (-2)).1 (by decide),
   (c7_deadline_rendering 0).2.1 rfl,
   (c7_deadline_rendering 1).2.2.1 rfl,
   (c7_deadline_rendering 5).2.2.2.1 (by decide)⟩

/-! ## Legacy mode (`format_slack_message_legacy`, `send_to_slack_legacy`,
main.py:439-554) -/

/-- Outcome of the single `requests.post` to the incoming webhook:
a transport error (`RequestException`) or an HTTP response with status
code and body text. -/
inductive WebhookResult
  | err
  | resp (status : Nat) (text : String)
deriving DecidableEq, Repr

/-- `format_slack_message_legacy` (main.py:439): header, then per stage a
`【name】` line, one `・…` line (slash-joined companies or 該当なし), and a
blank line, all joined with newlines. -/
def format_slack_message_legacy (sm : List (String × List String)) : String :=
  String.intercalate "\n"
    ("本日のNEWT Chat パイプライン状況（※敬称略）\n" ::
      sm.flatMap fun p =>
        ["【" ++ p.1 ++ "】",
         if p.2 = [] then "・該当なし" else "・" ++ String.intercalate " / " p.2,
         ""])

/-- `send_to_slack_legacy` (main.py:466): a transport error or a
4xx/5xx status (`raise_for_status`) is caught and returns `False`;
otherwise the function returns `True` whether or not the body is the
literal `ok` (the non-`ok` branch logs a warning and still returns
`True`). -/
def send_to_slack_legacy (r : WebhookResult) : Bool :=
  match r with
  | .err => false
  | .resp status text =>
    if 400 ≤ status ∧ status < 600 then false
    else if pyStrip text = "ok" then true else true

/-- Legacy branch of `main` (main.py:544-554): one formatted message is
posted by a single webhook call; exit code 0 on `True`, 1 on `False`. -/
def mainLegacy (sm : List (String × List String)) (r : WebhookResult) :
    List String × Nat :=
  ([format_slack_message_legacy sm], if send_to_slack_legacy r then 0 else 1)

/-- Claim C5: in Legacy mode the aggregate report is delivered by exactly
one webhook call, and the run exits non-zero iff that call hit a
transport error or an HTTP error status (4xx/5xx). -/
theorem c5_legacy_single_shot (sm : List (String × List String)) (r : WebhookResult) :
    (mainLegacy sm r).1 = [format_slack_message_legacy sm] ∧
    ((mainLegacy sm r).2 = 1 ↔
      r = .err ∨ ∃ st txt, r = .resp st txt ∧ 400 ≤ st ∧ st < 600) := by
  refine ⟨rfl, ?_⟩
  cases r with
  | err => simp [mainLegacy, send_to_slack_legacy]
  | resp st txt =>
    by_cases hc : 400 ≤ st ∧ st < 600
    · have hsend : send_to_slack_legacy (.resp st txt) = false := by
        rw [send_to_slack_legacy, if_pos hc]
      simp only [mainLegacy, hsend, Bool.false_eq_true, if_false]
      constructor
      · intro _; exact Or.inr ⟨st, txt, rfl, hc⟩
      · intro _; trivial
    · have hsend : send_to_slack_legacy (.resp st txt) = true := by
        rw [send_to_slack_legacy, if_neg hc]
        split <;> rfl
      simp only [mainLegacy, hsend, if_pos]
      constructor
      · intro h; cases h
      · rintro (h | ⟨st', txt', heq, hc'⟩)
        · cases h
        · obtain ⟨rfl, rfl⟩ : st = st' ∧ txt = txt' := by
            injection heq with h1 h2; exact ⟨h1, h2⟩
          exact absurd hc' hc

/-- Witness for C5: a 500 response makes the legacy run exit 1. -/
theorem c5_legacy_single_shot_witness :
    (mainLegacy [("リード", ["A社"])] (.resp 500 "server_error")).1 =
      [format_slack_message_legacy [("リード", ["A社"])]] ∧
    ((mainLegacy [("リード", ["A社"])] (.resp 500 "server_error")).2 = 1 ↔
      WebhookResult.resp 500 "server_error" = .err ∨
      ∃ st txt, WebhookResult.resp 500 "server_error" = .resp st txt ∧
        400 ≤ st ∧ st < 600) :=
  c5_legacy_single_shot [("リード", ["A社"])] (.resp 500 "server_error")

/-! ## Alert dispatch (`post_slack_message`, `send_alert`, `main`,
alert_checker.py:313-427) -/

/-- Outcome of one `requests.post` to `chat.postMessage`: a transport
error (`RequestException`, also covering `raise_for_status`) or a decoded
JSON body with its `ok` flag, optional `error` string, and optional `ts`. -/
inductive PostResult
  | err
  | resp (ok : Bool) (error : Option String) (ts : Option String)
deriving DecidableEq, Repr

/-- A message payload handed to `chat.postMessage`: text plus the
optional `thread_ts` key. -/
structure Payload where
  text : String
  thread_ts : Option String
deriving DecidableEq, Repr

/-- Lines logged by `post_slack_message` for each delivery attempt:
`Slack投稿成功` on success, `Slack API エラー` on an `ok: false` body,
`Slack投稿に失敗` on a transport error. -/
inductive SlackLog
  | postSuccess (thread_ts : Option String)
  | apiError (e : Option String)
  | postFailed
deriving DecidableEq, Repr

/-- Whether `post_slack_message` returns `True` for a given outcome. -/
def postOk : PostResult → Bool
  | .err => false
  | .resp ok _ _ => ok

/-- The single log line `post_slack_message` emits for outcome `r` when
the request carried `requestThread` as thread pointer. -/
def postLog (r : PostResult) (requestThread : Option String) : SlackLog :=
  match r with
  | .err => .postFailed
  | .resp ok e _ => if ok then .postSuccess requestThread else .apiError e

def isSuccessLog : SlackLog → Bool
  | .postSuccess _ => true
  | _ => false

def isFailureLog : SlackLog → Bool
  | .postSuccess _ => false
  | _ => true

/-- Message chosen by `send_alert` (alert_checker.py:361) from
`alert_type`; the checker-produced events are always deadline or
stagnation, so the unknown-type warning branch is unreachable. -/
def alertMessage (stageNameOf : Nat → String) (a : Alert) : String :=
  match a.info with
  | .deadline du T =>
    format_deadline_alert_message (titleText a.deal.title) du (formatDate T)
      (stageNameText stageNameOf a.deal.stage_id)
  | .stagnation days =>
    format_stagnation_alert_message (titleText a.deal.title) days
      (stageNameText stageNameOf a.deal.stage_id)

/-- Thread pointer resolution of `send_alert` + `post_slack_message`:
only consulted when `SLACK_THREAD_TS_FIELD_KEY` is configured, and a
falsy (empty) extracted value adds no `thread_ts` key to the payload. -/
def alertThreadTs (useThreadKey : Bool) (d : Deal) : Option String :=
  if useThreadKey then
    match extract_custom_field d.threadTs with
    | none => none
    | some ts => if ts = "" then none else some ts
  else none

/-- The payload `send_alert` posts for one alert event. -/
def payloadFor (stageNameOf : Nat → String) (useThreadKey : Bool) (a : Alert) :
    Payload :=
  ⟨alertMessage stageNameOf a, alertThreadTs useThreadKey a.deal⟩

/-- The `for alert in all_alerts: send_alert(alert)` loop of `main`
(alert_checker.py:424): each event is posted once, in order, consuming
one transport outcome per event; `send_alert` discards
`post_slack_message`'s boolean, so only the attempted payloads and the
log lines are observable. -/
def runAlerts (stageNameOf : Nat → String) (useThreadKey : Bool) :
    List PostResult → List Alert → List Payload × List SlackLog
  | _, [] => ([], [])
  | tr, a :: rest =>
    let p := payloadFor stageNameOf useThreadKey a
    let r := tr.headD .err
    let (ps, ls) := runAlerts stageNameOf useThreadKey tr.tail rest
    (p :: ps, postLog r p.thread_ts :: ls)

theorem isSuccessLog_postLog (r : PostResult) (t : Option String) :
    isSuccessLog (postLog r t) = postOk r := by
  cases r with
  | err => rfl
  | resp ok e ts => cases ok <;> rfl

theorem isFailureLog_postLog (r : PostResult) (t : Option String) :
    isFailureLog (postLog r t) = !postOk r := by
  cases r with
  | err => rfl
  | resp ok e ts => cases ok <;> rfl

/-- Claim C4: alert delivery is isolated per event. With one transport
outcome per event, every event's payload is posted, in order, regardless
of failures among the others; each attempt produces exactly one log line
determined by its own outcome (success line, API-error line, or
transport-failure line); and the log trace reports the delivery outcome
count: its success lines number the successful posts and its failure
lines the failed ones. -/
theorem c4_dispatch_isolation (stageNameOf : Nat → String) (useThreadKey : Bool)
    (tr : List PostResult) (alerts : List Alert)
    (h : tr.length = alerts.length) :
    (runAlerts stageNameOf useThreadKey tr alerts).1 =
      alerts.map (payloadFor stageNameOf useThreadKey) ∧
    (runAlerts stageNameOf useThreadKey tr alerts).2 =
      List.zipWith
        (fun a r => postLog r (payloadFor stageNameOf useThreadKey a).thread_ts)
        alerts tr ∧
    (runAlerts stageNameOf useThreadKey tr alerts).2.countP isSuccessLog =
      tr.countP postOk ∧
    (runAlerts stageNameOf useThreadKey tr alerts).2.countP isFailureLog =
      tr.countP (fun r => !postOk r) := by
  induction alerts generalizing tr with
  | nil =>
    obtain rfl : tr = [] := List.length_eq_zero.1 h
    exact ⟨rfl, rfl, rfl, rfl⟩
  | cons a rest ih =>
    cases tr with
    | nil => simp at h
    | cons r tr' =>
      have h' : tr'.length = rest.length := by simpa using h
      obtain ⟨h1, h2, h3, h4⟩ := ih tr' h'
      refine ⟨?_, ?_, ?_, ?_⟩
      · simp only [runAlerts, List.headD, List.tail, List.map]
        rw [h1]
      · simp only [runAlerts, List.headD, List.tail, List.zipWith]
        rw [h2]
      · simp only [runAlerts, List.headD, List.tail, List.countP_cons,
          isSuccessLog_postLog, h3]
      · simp only [runAlerts, List.headD, List.tail, List.countP_cons,
          isFailureLog_postLog, h4]

/-- Witness for C4, the spec's three-event example: three alert events
where the second delivery hits a transport error; all three are attempted
and the trace counts 2 successes and 1 failure. -/
theorem c4_dispatch_isolation_witness :
    ([PostResult.resp true none none, PostResult.err,
        PostResult.resp true none none].countP postOk = 2 ∧
      [PostResult.resp true none none, PostResult.err,
        PostResult.resp true none none].countP (fun r => !postOk r) = 1) ∧
    ((runAlerts (fun _ => "商談中") false
        [PostResult.resp true none none, PostResult.err,
         PostResult.resp true none none]
        [⟨⟨1, .str "A社", some 1, .missing, .missing, .missing⟩, .deadline 3 ⟨2024, 5, 13⟩⟩,
         ⟨⟨2, .str "B社", some 1, .missing, .missing, .missing⟩, .deadline 0 ⟨2024, 5, 10⟩⟩,
         ⟨⟨3, .str "C社", some 1, .missing, .missing, .missing⟩, .stagnation 7⟩]).1 =
      [⟨⟨1, .str "A社", some 1, .missing, .missing, .missing⟩, .deadline 3 ⟨2024, 5, 13⟩⟩,
       ⟨⟨2, .str "B社", some 1, .missing, .missing, .missing⟩, .deadline 0 ⟨2024, 5, 10⟩⟩,
       ⟨⟨3, .str "C社", some 1, .missing, .missing, .missing⟩,
         .stagnation 7⟩].map (payloadFor (fun _ => "商談中") false) ∧
    (runAlerts (fun _ => "商談中") false
        [PostResult.resp true none none, PostResult.err,
         PostResult.resp true none none]
        [⟨⟨1, .str "A社", some 1, .missing, .missing, .missing⟩, .deadline 3 ⟨2024, 5, 13⟩⟩,
         ⟨⟨2, .str "B社", some 1, .missing, .missing, .missing⟩, .deadline 0 ⟨2024, 5, 10⟩⟩,
         ⟨⟨3, .str "C社", some 1, .missing, .missing, .missing⟩, .stagnation 7⟩]).2 =
      List.zipWith
        (fun a r => postLog r (payloadFor (fun _ => "商談中") false a).thread_ts)
        [⟨⟨1, .str "A社", some 1, .missing, .missing, .missing⟩, .deadline 3 ⟨2024, 5, 13⟩⟩,
         ⟨⟨2, .str "B社", some 1, .missing, .missing, .missing⟩, .deadline 0 ⟨2024, 5, 10⟩⟩,
         ⟨⟨3, .str "C社", some 1, .missing, .missing, .missing⟩, .stagnation 7⟩]
        [PostResult.resp true none none, PostResult.err,
         PostResult.resp true none none] ∧
    (runAlerts (fun _ => "商談中") false
        [PostResult.resp true none none, PostResult.err,
         PostResult.resp true none none]
        [⟨⟨1, .str "A社", some 1, .missing, .missing, .missing⟩, .deadline 3 ⟨2024, 5, 13⟩⟩,
         ⟨⟨2, .str "B社", some 1, .missing, .missing, .missing⟩, .deadline 0 ⟨2024, 5, 10⟩⟩,
         ⟨⟨3, .str "C社", some 1, .missing, .missing, .missing⟩, .stagnation 7⟩]).2.countP
        isSuccessLog =
      [PostResult.resp true none none, PostResult.err,
        PostResult.resp true none none].countP postOk ∧
    (runAlerts (fun _ => "商談中") false
        [PostResult.resp true none none, PostResult.err,
         PostResult.resp true none none]
        [⟨⟨1, .str "A社", some 1, .missing, .missing, .missing⟩, .deadline 3 ⟨2024, 5, 13⟩⟩,
         ⟨⟨2, .str "B社", some 1, .missing, .missing, .missing⟩, .deadline 0 ⟨2024, 5, 10⟩⟩,
         ⟨⟨3, .str "C社", some 1, .missing, .missing, .missing⟩, .stagnation 7⟩]).2.countP
        isFailureLog =
      [PostResult.resp true none none, PostResult.err,
        PostResult.resp true none none].countP (fun r => !postOk r)) :=
  ⟨⟨by decide, by decide⟩,
   c4_dispatch_isolation (fun _ => "商談中") false _ _ rfl⟩

/-! ## Enhanced aggregate delivery (`send_to_slack_with_thread`,
main.py:353-436, and the enhanced branch of `main`, main.py:528-543)

The whole function body, including the follow-up loop, sits inside one
`try`: a `RequestException` (or `raise_for_status`) raised by a follow-up
post jumps to the `except` handler and returns `False`, whereas a
follow-up answered with `ok: false` only logs a warning and continues. -/

/-- `format_stage_detail` (main.py:335). -/
def format_stage_detail (stage_name : String) (companies : List String) : String :=
  if companies ≠ [] then
    "*【" ++ stage_name ++ "】* (" ++ toString companies.length ++ "社)\n" ++
      String.intercalate " / " companies
  else "*【" ++ stage_name ++ "】* (0社)\n該当なし"

/-- Total company count over the stage map (main.py:370). -/
def totalCompanies (sm : List (String × List String)) : Nat :=
  (sm.map fun p => p.2.length).sum

/-- The parent (summary) message text (main.py:373). -/
def parentMessage (summary : String) (sm : List (String × List String)) : String :=
  "📊 *本日のNEWT Chat パイプライン状況* (" ++ toString (totalCompanies sm) ++
    "社)\n\n" ++ summary

/-- Log lines of `send_to_slack_with_thread`: parent sent (with its `ts`),
parent `ok: false`, per-stage thread reply posted / warned, or the
`except`-handler transport-failure line. -/
inductive MainLog
  | summarySent (ts : Option String)
  | apiErr (e : Option String)
  | threadOk (stage : String)
  | threadWarn (stage : String) (e : Option String)
  | postFailed
deriving DecidableEq, Repr

/-- Observable outcome of `send_to_slack_with_thread`: the payloads whose
posting was attempted (in order), the returned boolean, and the log. -/
structure SendResult where
  posts : List Payload
  ok : Bool
  logs : List MainLog
deriving DecidableEq, Repr

/-- The thread-reply payload for one stage, attached to anchor `ts`
(main.py:406; the `thread_ts` key always carries the parent's `ts`). -/
def stagePayload (ts : Option String) (p : String × List String) : Payload :=
  ⟨format_stage_detail p.1 p.2, ts⟩

/-- The log line for one delivered (non-transport-error) follow-up. -/
def followupLog (st : String × List String) : PostResult → MainLog
  | .err => .postFailed
  | .resp ok e _ => if ok then .threadOk st.1 else .threadWarn st.1 e

/-- The follow-up loop of main.py:403-426, consuming one transport
outcome per stage: a transport error returns `False` immediately (the
erroring attempt included in the trace); an `ok: false` body logs a
warning and continues. -/
def loopFollowups (ts : Option String) :
    List PostResult → List (String × List String) → SendResult
  | _, [] => ⟨[], true, []⟩
  | tr, st :: rest =>
    let p := stagePayload ts st
    match tr.headD .err with
    | .err => ⟨[p], false, [.postFailed]⟩
    | .resp ok e _ =>
      let r := loopFollowups ts tr.tail rest
      ⟨p :: r.posts, r.ok,
        (if ok then MainLog.threadOk st.1 else .threadWarn st.1 e) :: r.logs⟩

/-- `send_to_slack_with_thread` (main.py:353): post the parent; on its
success take `data.get('ts')` as the thread anchor and run the follow-up
loop; a parent transport error or `ok: false` returns `False` without
attempting any follow-up. -/
def send_to_slack_with_thread (tr : List PostResult) (summary : String)
    (sm : List (String × List String)) : SendResult :=
  let pp : Payload := ⟨parentMessage summary sm, none⟩
  match tr.headD .err with
  | .err => ⟨[pp], false, [.postFailed]⟩
  | .resp ok e ts =>
    if ok then
      let r := loopFollowups ts tr.tail sm
      ⟨pp :: r.posts, r.ok, .summarySent ts :: r.logs⟩
    else ⟨[pp], false, [.apiErr e]⟩

/-- Enhanced branch of `main` (main.py:538-543): exit 0 iff
`send_to_slack_with_thread` returned `True`. -/
def mainEnhancedExit (tr : List PostResult) (summary : String)
    (sm : List (String × List String)) : Nat :=
  if (send_to_slack_with_thread tr summary sm).ok then 0 else 1

theorem loopFollowups_no_err (ts : Option String)
    (sm : List (String × List String)) (rs : List PostResult)
    (hlen : rs.length = sm.length) (hne : ∀ r ∈ rs, r ≠ .err) :
    loopFollowups ts rs sm =
      ⟨sm.map (stagePayload ts), true, List.zipWith followupLog sm rs⟩ := by
  induction sm generalizing rs with
  | nil =>
    obtain rfl : rs = [] := List.length_eq_zero.1 hlen
    rfl
  | cons st rest ih =>
    cases rs with
    | nil => simp at hlen
    | cons r rs' =>
      have hlen' : rs'.length = rest.length := by simpa using hlen
      have hr := hne r (by simp)
      cases r with
      | err => exact absurd rfl hr
      | resp ok e ts' =>
        have hne' : ∀ x ∈ rs', x ≠ .err := fun x hx => hne x (by simp [hx])
        simp only [loopFollowups, List.headD, List.tail, ih rs' hlen' hne',
          List.map, List.zipWith, followupLog]

theorem loopFollowups_err_abort (ts : Option String)
    (sm1 sm2 : List (String × List String)) (st : String × List String)
    (rs1 rs2 : List PostResult)
    (hlen : rs1.length = sm1.length) (hne : ∀ r ∈ rs1, r ≠ .err) :
    loopFollowups ts (rs1 ++ .err :: rs2) (sm1 ++ st :: sm2) =
      ⟨sm1.map (stagePayload ts) ++ [stagePayload ts st], false,
        List.zipWith followupLog sm1 rs1 ++ [.postFailed]⟩ := by
  induction sm1 generalizing rs1 with
  | nil =>
    obtain rfl : rs1 = [] := List.length_eq_zero.1 hlen
    rfl
  | cons st1 rest ih =>
    cases rs1 with
    | nil => simp at hlen
    | cons r rs1' =>
      have hlen' : rs1'.length = rest.length := by simpa using hlen
      have hr := hne r (by simp)
      cases r with
      | err => exact absurd rfl hr
      | resp ok e ts' =>
        have hne' : ∀ x ∈ rs1', x ≠ .err := fun x hx => hne x (by simp [hx])
        simp only [List.cons_append, loopFollowups, List.headD, List.tail,
          List.append_eq, ih rs1' hlen' hne', List.map, List.zipWith, followupLog]

/-- Claim C3, counterexample: stage map `[("A", ["x"]), ("B", [])]`, the
parent post succeeding with anchor `"111"`, and the follow-up for stage
`"A"` hitting a transport error. The claim requires stage `"B"` still to
be attempted and the run not to abort; instead only the parent and the
`"A"` follow-up are attempted, the function returns `False`, and the run
exits 1. -/
theorem c3_enhanced_thread_counterexample :
    (send_to_slack_with_thread
        [.resp true none (some "111"), .err, .resp true none none]
        "S" [("A", ["x"]), ("B", [])]).posts =
      [⟨parentMessage "S" [("A", ["x"]), ("B", [])], none⟩,
       stagePayload (some "111") ("A", ["x"])] ∧
    stagePayload (some "111") ("B", []) ∉
      (send_to_slack_with_thread
        [.resp true none (some "111"), .err, .resp true none none]
        "S" [("A", ["x"]), ("B", [])]).posts ∧
    (send_to_slack_with_thread
        [.resp true none (some "111"), .err, .resp true none none]
        "S" [("A", ["x"]), ("B", [])]).ok = false ∧
    mainEnhancedExit
        [.resp true none (some "111"), .err, .resp true none none]
        "S" [("A", ["x"]), ("B", [])] = 1 := by
  refine ⟨rfl, ?_, rfl, rfl⟩
  decide

/-- Claim C3, amended: in Enhanced mode the parent is always delivered
first; a parent failure (transport error or `ok: false`) aborts before
any follow-up and fails the run; on parent success the stage follow-ups
are attached to the returned anchor in StageMap order, where a follow-up
answered `ok: false` is logged for that stage and does not abort the
remaining follow-ups or the run, but a follow-up *transport error* is
logged, aborts the remaining follow-ups, and makes the run exit
non-zero. -/
theorem c3_enhanced_thread_delivery (tr : List PostResult) (summary : String)
    (sm : List (String × List String)) :
    ((send_to_slack_with_thread tr summary sm).posts.head? =
      some ⟨parentMessage summary sm, none⟩) ∧
    (tr.headD .err = .err →
      send_to_slack_with_thread tr summary sm =
        ⟨[⟨parentMessage summary sm, none⟩], false, [.postFailed]⟩) ∧
    (∀ e ts, tr.headD .err = .resp false e ts →
      send_to_slack_with_thread tr summary sm =
        ⟨[⟨parentMessage summary sm, none⟩], false, [.apiErr e]⟩) ∧
    (∀ e ts, tr.headD .err = .resp true e ts →
      send_to_slack_with_thread tr summary sm =
        ⟨⟨parentMessage summary sm, none⟩ :: (loopFollowups ts tr.tail sm).posts,
          (loopFollowups ts tr.tail sm).ok,
          .summarySent ts :: (loopFollowups ts tr.tail sm).logs⟩) ∧
    (∀ ts rs, rs.length = sm.length → (∀ r ∈ rs, r ≠ .err) →
      loopFollowups ts rs sm =
        ⟨sm.map (stagePayload ts), true, List.zipWith followupLog sm rs⟩) ∧
    (∀ ts st sm1 sm2 rs1 rs2, sm = sm1 ++ st :: sm2 →
      rs1.length = sm1.length → (∀ r ∈ rs1, r ≠ .err) →
      loopFollowups ts (rs1 ++ .err :: rs2) sm =
        ⟨sm1.map (stagePayload ts) ++ [stagePayload ts st], false,
          List.zipWith followupLog sm1 rs1 ++ [.postFailed]⟩) ∧
    (mainEnhancedExit tr summary sm = 0 ↔
      (send_to_slack_with_thread tr summary sm).ok = true) := by
  refine ⟨?_, ?_, ?_, ?_, ?_, ?_, ?_⟩
  · rw [send_to_slack_with_thread]
    cases h : tr.headD .err with
    | err => rfl
    | resp ok e ts => cases ok <;> rfl
  · intro h; rw [send_to_slack_with_thread, h]
  · intro e ts h; rw [send_to_slack_with_thread, h]; rfl
  · intro e ts h; rw [send_to_slack_with_thread, h]; rfl
  · exact fun ts rs hlen hne => loopFollowups_no_err ts sm rs hlen hne
  · rintro ts st sm1 sm2 rs1 rs2 rfl hlen hne
    exact loopFollowups_err_abort ts sm1 sm2 st rs1 rs2 hlen hne
  · rw [mainEnhancedExit]
    split
    · next h => simp [h]
    · next h => simp [h]

/-- Witness for C3 (amended): parent succeeds with anchor `"1"`, the
first follow-up is answered `ok: false`, the second succeeds; both
follow-ups are attempted in order and the loop reports success. -/
theorem c3_enhanced_thread_delivery_witness :
    send_to_slack_with_thread
        [.resp true none (some "1"), .resp false (some "error") none,
         .resp true none none]
        "S" [("A", ["x"]), ("B", [])] =
      ⟨⟨parentMessage "S" [("A", ["x"]), ("B", [])], none⟩ ::
          (loopFollowups (some "1")
            [.resp false (some "error") none, .resp true none none]
            [("A", ["x"]), ("B", [])]).posts,
        (loopFollowups (some "1")
          [.resp false (some "error") none, .resp true none none]
          [("A", ["x"]), ("B", [])]).ok,
        .summarySent (some "1") ::
          (loopFollowups (some "1")
            [.resp false (some "error") none, .resp true none none]
            [("A", ["x"]), ("B", [])]).logs⟩ ∧
    loopFollowups (some "1")
        [.resp false (some "error") none, .resp true none none]
        [("A", ["x"]), ("B", [])] =
      ⟨[("A", ["x"]), ("B", [])].map (stagePayload (some "1")), true,
        List.zipWith followupLog [("A", ["x"]), ("B", [])]
          [.resp false (some "error") none, .resp true none none]⟩ :=
  ⟨(c3_enhanced_thread_delivery
      [.resp true none (some "1"), .resp false (some "error") none,
       .resp true none none]
      "S" [("A", ["x"]), ("B", [])]).2.2.2.1 none (some "1") rfl,
   (c3_enhanced_thread_delivery
      [.resp true none (some "1"), .resp false (some "error") none,
       .resp true none none]
      "S" [("A", ["x"]), ("B", [])]).2.2.2.2.1 (some "1")
      [.resp false (some "error") none, .resp true none none] rfl
      (by decide)⟩

/-! ## Stage aggregation (`get_pipeline_stages`, `group_companies_by_stage`,
main.py:64-265)

`get_pipeline_stages` sorts the fetched stages by `order_nr` (stable, as
Python's `sorted`); `group_companies_by_stage` then iterates them in that
order, fetching each stage's open deals through the CRM collaborator
(`dealsOf`), collecting the set of stripped non-empty titles, and storing
the sorted list under the stage's *name* in an insertion-ordered dict
(assigning to an existing key overwrites its value in place). A deal dict
carrying `title: None` makes `deal.get('title', '').strip()` raise an
uncaught `AttributeError`. -/

/-- A pipeline stage record: `id`, `name` (absent → `'不明'` default via
`stage.get('name', '不明')`), `order_nr` (absent → 0). -/
structure Stage where
  id : Nat
  name : Option String
  order_nr : Nat
deriving DecidableEq, Repr

def stageName (st : Stage) : String := st.name.getD "不明"

def stageLe (a b : Stage) : Prop := a.order_nr ≤ b.order_nr

instance : DecidableRel stageLe := fun a b => Nat.decLe a.order_nr b.order_nr

instance : IsTotal Stage stageLe := ⟨fun a b => Nat.le_total a.order_nr b.order_nr⟩

instance : IsTrans Stage stageLe := ⟨fun _ _ _ => Nat.le_trans⟩

/-- `sorted(stages, key=lambda x: x.get('order_nr', 0))` (main.py:109);
insertion sort is stable like Python's sort. -/
def sortStages (stages : List Stage) : List Stage :=
  List.insertionSort stageLe stages

/-- `companies.add(title)`: adding to the set; list-with-dedup model
(final order is normalized by `sorted` anyway). -/
def setInsert (acc : List String) (t : String) : List String :=
  if t ∈ acc then acc else acc ++ [t]

/-- Effect of one loop iteration of main.py:253-258 on the company set,
by shape of the `title` value: `deal.get('title', '')` defaults an absent
key to `''`, `.strip()` trims, and a falsy (empty) result is skipped.
(The `.null` case is split off by the caller, which crashes there.) -/
def titleStepTotal (acc : List String) : TitleVal → List String
  | .str s => if pyStrip s = "" then acc else setInsert acc (pyStrip s)
  | _ => acc

/-- The company-collection loop, total version (defined on deal lists
without explicit-`None` titles). -/
def collectTitlesTotal (acc : List String) : List Deal → List String
  | [] => acc
  | d :: ds => collectTitlesTotal (titleStepTotal acc d.title) ds

/-- The company-collection loop as executed: a deal whose dict maps
`title` to `None` raises `AttributeError` (uncaught in
`group_companies_by_stage`). -/
def collectTitles (acc : List String) : List Deal → Except Unit (List String)
  | [] => .ok acc
  | d :: ds =>
    if d.title = .null then .error ()
    else collectTitles (titleStepTotal acc d.title) ds

/-- Python's string ordering: lexicographic comparison of code points
(kernel-computable). -/
def charListLe : List Char → List Char → Bool
  | [], _ => true
  | _ :: _, [] => false
  | a :: as, b :: bs =>
    if a.toNat < b.toNat then true
    else if b.toNat < a.toNat then false
    else charListLe as bs

def pyStrLe (a b : String) : Bool := charListLe a.data b.data

instance : DecidableRel (fun a b : String => pyStrLe a b = true) :=
  fun a b => Bool.decEq (pyStrLe a b) true

/-- `sorted(companies)` (main.py:260). -/
def sortStrings (l : List String) : List String :=
  List.insertionSort (fun a b => pyStrLe a b = true) l

/-- The per-stage company list: collected set, sorted. -/
def companiesOfStage (deals : List Deal) : Except Unit (List String) :=
  match collectTitles [] deals with
  | .error e => .error e
  | .ok l => .ok (sortStrings l)

/-- Total version of `companiesOfStage`, equal to it on deal lists with
no explicit-`None` title. -/
def stageCompanies (deals : List Deal) : List String :=
  sortStrings (collectTitlesTotal [] deals)

/-- `stage_companies[stage_name] = ...`: assignment into an
insertion-ordered dict — replaces in place if the key exists, else
appends. -/
def upsert (m : List (String × List String)) (k : String) (v : List String) :
    List (String × List String) :=
  match m with
  | [] => [(k, v)]
  | (k', v') :: t => if k' = k then (k, v) :: t else (k', v') :: upsert t k v

/-- The stage loop of `group_companies_by_stage` (main.py:245-264). -/
def groupGo (dealsOf : Nat → List Deal) (acc : List (String × List String)) :
    List Stage → Except Unit (List (String × List String))
  | [] => .ok acc
  | st :: rest =>
    match companiesOfStage (dealsOf st.id) with
    | .error e => .error e
    | .ok cs => groupGo dealsOf (upsert acc (stageName st) cs) rest

/-- `group_companies_by_stage` (main.py:230): the CRM per-stage deal
fetch is the collaborator `dealsOf` (stage id → open deals). -/
def group_companies_by_stage (dealsOf : Nat → List Deal) (stages : List Stage) :
    Except Unit (List (String × List String)) :=
  groupGo dealsOf [] stages

/-- Python-dict lookup by key in the association-list model. -/
def lookupName (k : String) : List (String × List String) → Option (List String)
  | [] => none
  | (k', v) :: t => if k' = k then some v else lookupName k t

def keysOf (m : List (String × List String)) : List String := m.map Prod.fst

/-- The last stage of the list whose display name is `n` — the one whose
companies survive in the dict after all overwrites. -/
def lastNamed (n : String) : List Stage → Option Stage
  | [] => none
  | st :: rest =>
    match lastNamed n rest with
    | some x => some x
    | none => if stageName st = n then some st else none

theorem mem_setInsert (acc : List String) (t t' : String) :
    t' ∈ setInsert acc t ↔ t' ∈ acc ∨ t' = t := by
  unfold setInsert
  split
  · next h =>
    constructor
    · exact Or.inl
    · rintro (h' | rfl)
      · exact h'
      · exact h
  · next h => simp [List.mem_append]

theorem nodup_setInsert (acc : List String) (t : String) (h : acc.Nodup) :
    (setInsert acc t).Nodup := by
  unfold setInsert
  split
  · exact h
  · next hn =>
    simp only [List.nodup_append, List.nodup_cons, List.not_mem_nil,
      not_false_iff, List.nodup_nil, and_true, true_and]
    refine ⟨h, fun a ha hmem => hn ?_⟩
    obtain rfl : a = t := by simpa using hmem
    exact ha

theorem mem_titleStepTotal (acc : List String) (tv : TitleVal) (t : String) :
    t ∈ titleStepTotal acc tv ↔
      t ∈ acc ∨ ∃ s, tv = .str s ∧ pyStrip s = t ∧ t ≠ "" := by
  cases tv with
  | absent => simp [titleStepTotal]
  | null => simp [titleStepTotal]
  | str s =>
    simp only [titleStepTotal]
    by_cases h : pyStrip s = ""
    · rw [if_pos h]
      constructor
      · exact Or.inl
      · rintro (ht | ⟨s', hs', rfl, hne⟩)
        · exact ht
        · obtain rfl : s = s' := by injection hs'
          exact absurd h hne
    · rw [if_neg h, mem_setInsert]
      constructor
      · rintro (ht | rfl)
        · exact Or.inl ht
        · exact Or.inr ⟨s, rfl, rfl, h⟩
      · rintro (ht | ⟨s', hs', rfl, hne⟩)
        · exact Or.inl ht
        · obtain rfl : s = s' := by injection hs'
          exact Or.inr rfl

theorem nodup_titleStepTotal (acc : List String) (tv : TitleVal) (h : acc.Nodup) :
    (titleStepTotal acc tv).Nodup := by
  cases tv with
  | absent => exact h
  | null => exact h
  | str s =>
    simp only [titleStepTotal]
    split
    · exact h
    · exact nodup_setInsert acc (pyStrip s) h

theorem mem_collectTitlesTotal (deals : List Deal) : ∀ (acc : List String) (t : String),
    t ∈ collectTitlesTotal acc deals ↔
      t ∈ acc ∨ ∃ d ∈ deals, ∃ s, d.title = .str s ∧ pyStrip s = t ∧ t ≠ "" := by
  induction deals with
  | nil => intro acc t; simp [collectTitlesTotal]
  | cons d ds ih =>
    intro acc t
    rw [collectTitlesTotal, ih, mem_titleStepTotal]
    constructor
    · rintro ((ht | ⟨s, hs, htr, hne⟩) | ⟨x, hx, hP⟩)
      · exact Or.inl ht
      · exact Or.inr ⟨d, by simp, s, hs, htr, hne⟩
      · exact Or.inr ⟨x, by simp [hx], hP⟩
    · rintro (ht | ⟨x, hx, hP⟩)
      · exact Or.inl (Or.inl ht)
      · rcases List.mem_cons.1 hx with rfl | hx'
        · exact Or.inl (Or.inr hP)
        · exact Or.inr ⟨x, hx', hP⟩

theorem nodup_collectTitlesTotal (deals : List Deal) : ∀ acc : List String,
    acc.Nodup → (collectTitlesTotal acc deals).Nodup := by
  induction deals with
  | nil => intro acc h; exact h
  | cons d ds ih =>
    intro acc h
    rw [collectTitlesTotal]
    exact ih _ (nodup_titleStepTotal acc d.title h)

theorem collectTitles_eq_total (deals : List Deal) : ∀ acc : List String,
    (∀ d ∈ deals, d.title ≠ .null) →
    collectTitles acc deals = .ok (collectTitlesTotal acc deals) := by
  induction deals with
  | nil => intro acc _; rfl
  | cons d ds ih =>
    intro acc h
    rw [collectTitles, if_neg (h d (by simp)), collectTitlesTotal]
    exact ih _ (fun x hx => h x (by simp [hx]))

theorem collectTitles_null_crash (deals : List Deal) : ∀ acc : List String,
    (∃ d ∈ deals, d.title = .null) → collectTitles acc deals = .error () := by
  induction deals with
  | nil => intro acc h; simp at h
  | cons d ds ih =>
    rintro acc ⟨x, hx, hxt⟩
    rcases List.mem_cons.1 hx with rfl | hx'
    · rw [collectTitles, if_pos hxt]
    · by_cases hd : d.title = .null
      · rw [collectTitles, if_pos hd]
      · rw [collectTitles, if_neg hd]
        exact ih _ ⟨x, hx', hxt⟩

theorem companiesOfStage_eq (deals : List Deal)
    (h : ∀ d ∈ deals, d.title ≠ .null) :
    companiesOfStage deals = .ok (stageCompanies deals) := by
  rw [companiesOfStage, collectTitles_eq_total deals [] h]
  rfl

theorem stageCompanies_mem (deals : List Deal) (t : String) :
    t ∈ stageCompanies deals ↔
      ∃ d ∈ deals, ∃ s, d.title = .str s ∧ pyStrip s = t ∧ t ≠ "" := by
  rw [stageCompanies, sortStrings, (List.perm_insertionSort _ _).mem_iff,
    mem_collectTitlesTotal]
  simp

theorem stageCompanies_nodup (deals : List Deal) : (stageCompanies deals).Nodup := by
  rw [stageCompanies, sortStrings]
  exact (List.perm_insertionSort _ _).nodup_iff.2
    (nodup_collectTitlesTotal deals [] List.nodup_nil)

theorem charListLe_total : ∀ as bs : List Char,
    charListLe as bs = true ∨ charListLe bs as = true := by
  intro as
  induction as with
  | nil => intro bs; exact Or.inl rfl
  | cons a as ih =>
    intro bs
    cases bs with
    | nil => exact Or.inr rfl
    | cons b bs =>
      rcases Nat.lt_trichotomy a.toNat b.toNat with h | h | h
      · left; rw [charListLe, if_pos h]
      · rcases ih bs with h' | h'
        · left
          rw [charListLe, if_neg (by omega), if_neg (by omega)]
          exact h'
        · right
          rw [charListLe, if_neg (by omega), if_neg (by omega)]
          exact h'
      · right; rw [charListLe, if_pos h]

theorem charListLe_trans : ∀ as bs cs : List Char,
    charListLe as bs = true → charListLe bs cs = true →
    charListLe as cs = true := by
  intro as
  induction as with
  | nil => intro bs cs _ _; rfl
  | cons a as ih =>
    intro bs cs h1 h2
    cases bs with
    | nil => exact absurd h1 (by rw [charListLe]; simp)
    | cons b bs =>
      cases cs with
      | nil => exact absurd h2 (by rw [charListLe]; simp)
      | cons c cs =>
        rw [charListLe] at h1 h2 ⊢
        by_cases hab : a.toNat < b.toNat
        · by_cases hbc : b.toNat < c.toNat
          · rw [if_pos (by omega)]
          · by_cases hcb : c.toNat < b.toNat
            · rw [if_neg hbc, if_pos hcb] at h2; cases h2
            · rw [if_pos (by omega)]
        · by_cases hba : b.toNat < a.toNat
          · rw [if_neg hab, if_pos hba] at h1; cases h1
          · by_cases hbc : b.toNat < c.toNat
            · rw [if_pos (by omega)]
            · by_cases hcb : c.toNat < b.toNat
              · rw [if_neg hbc, if_pos hcb] at h2; cases h2
              · rw [if_neg hab, if_neg hba] at h1
                rw [if_neg hbc, if_neg hcb] at h2
                rw [if_neg (by omega), if_neg (by omega)]
                exact ih bs cs h1 h2

instance : IsTotal String (fun a b => pyStrLe a b = true) :=
  ⟨fun a b => charListLe_total a.data b.data⟩

instance : IsTrans String (fun a b => pyStrLe a b = true) :=
  ⟨fun a b c => charListLe_trans a.data b.data c.data⟩

theorem stageCompanies_sorted (deals : List Deal) :
    List.Sorted (fun a b => pyStrLe a b = true) (stageCompanies deals) :=
  List.sorted_insertionSort _ _

theorem lookupName_upsert (m : List (String × List String)) (k : String)
    (v : List String) (n : String) :
    lookupName n (upsert m k v) = if k = n then some v else lookupName n m := by
  induction m with
  | nil => rfl
  | cons p t ih =>
    obtain ⟨k', v'⟩ := p
    rw [upsert]
    by_cases hk : k' = k
    · rw [if_pos hk]
      subst hk
      by_cases hn : k' = n
      · rw [lookupName, if_pos hn, if_pos hn]
      · rw [lookupName, if_neg hn, if_neg hn, lookupName, if_neg hn]
    · rw [if_neg hk, lookupName, lookupName]
      by_cases hn : k' = n
      · rw [if_pos hn, if_pos hn, if_neg (fun h => hk (hn.trans h.symm))]
      · rw [if_neg hn, if_neg hn, ih]

theorem keysOf_upsert (m : List (String × List String)) (k : String)
    (v : List String) :
    keysOf (upsert m k v) =
      if k ∈ keysOf m then keysOf m else keysOf m ++ [k] := by
  induction m with
  | nil => simp [upsert, keysOf]
  | cons p t ih =>
    obtain ⟨k', v'⟩ := p
    rw [upsert]
    by_cases hk : k' = k
    · subst hk
      rw [if_pos rfl]
      simp [keysOf]
    · rw [if_neg hk]
      simp only [keysOf, List.map_cons] at ih ⊢
      rw [ih]
      by_cases hm : k ∈ List.map Prod.fst t
      · rw [if_pos hm, if_pos (by simp [hm])]
      · rw [if_neg hm, if_neg (by simp only [List.mem_cons, not_or]; exact ⟨fun h => hk h.symm, hm⟩)]
        simp

theorem keysOf_upsert_nodup (m : List (String × List String)) (k : String)
    (v : List String) (h : (keysOf m).Nodup) : (keysOf (upsert m k v)).Nodup := by
  rw [keysOf_upsert]
  split
  · exact h
  · next hk =>
    simp only [List.nodup_append, List.nodup_cons, List.not_mem_nil,
      not_false_iff, List.nodup_nil, and_true, true_and]
    refine ⟨h, fun a ha hmem => hk ?_⟩
    obtain rfl : a = k := by simpa using hmem
    exact ha

theorem upsert_fresh (m : List (String × List String)) (k : String)
    (v : List String) (h : k ∉ keysOf m) : upsert m k v = m ++ [(k, v)] := by
  induction m with
  | nil => rfl
  | cons p t ih =>
    obtain ⟨k', v'⟩ := p
    simp only [keysOf, List.map_cons, List.mem_cons, not_or] at h
    rw [upsert, if_neg (fun hh => h.1 hh.symm), List.cons_append]
    rw [ih h.2]

theorem groupGo_ok (dealsOf : Nat → List Deal) (stages : List Stage) :
    ∀ acc, (∀ st ∈ stages, ∀ d ∈ dealsOf st.id, d.title ≠ .null) →
    groupGo dealsOf acc stages =
      .ok (stages.foldl
        (fun m st => upsert m (stageName st) (stageCompanies (dealsOf st.id))) acc) := by
  induction stages with
  | nil => intro acc _; rfl
  | cons st rest ih =>
    intro acc h
    rw [groupGo, companiesOfStage_eq _ (h st (by simp))]
    exact ih _ (fun x hx => h x (by simp [hx]))

theorem groupGo_crash (dealsOf : Nat → List Deal) (stages : List Stage) :
    ∀ acc, (∃ st ∈ stages, ∃ d ∈ dealsOf st.id, d.title = .null) →
    groupGo dealsOf acc stages = .error () := by
  induction stages with
  | nil => intro acc h; simp at h
  | cons st rest ih =>
    rintro acc ⟨x, hx, hd⟩
    rcases List.mem_cons.1 hx with rfl | hx'
    · have : companiesOfStage (dealsOf x.id) = .error () := by
        rw [companiesOfStage, collectTitles_null_crash _ [] hd]
      rw [groupGo, this]
    · cases hc : companiesOfStage (dealsOf st.id) with
      | error e =>
        obtain rfl : e = () := rfl
        rw [groupGo, hc]
      | ok cs =>
        rw [groupGo, hc]
        exact ih _ ⟨x, hx', hd⟩

theorem foldl_upsert_fresh (f : Stage → List String) (stages : List Stage) :
    ∀ acc, ((stages.map stageName).Nodup) →
    (∀ st ∈ stages, stageName st ∉ keysOf acc) →
    stages.foldl (fun m st => upsert m (stageName st) (f st)) acc =
      acc ++ stages.map (fun st => (stageName st, f st)) := by
  induction stages with
  | nil => intro acc _ _; simp
  | cons st rest ih =>
    intro acc hnd hfresh
    have hst : stageName st ∉ keysOf acc := hfresh st (by simp)
    simp only [List.map_cons, List.nodup_cons] at hnd
    rw [List.foldl_cons, upsert_fresh acc _ _ hst,
      ih (acc ++ [(stageName st, f st)]) hnd.2 ?fresh]
    · simp
    case fresh =>
      intro x hx
      simp only [keysOf, List.map_append, List.map_cons, List.map_nil,
        List.mem_append, List.mem_cons, List.not_mem_nil, or_false, not_or]
      exact ⟨hfresh x (by simp [hx]),
        fun heq => hnd.1 (List.mem_map.2 ⟨x, hx, heq⟩)⟩

theorem foldl_upsert_lookup (f : Stage → List String) (stages : List Stage) :
    ∀ acc n,
    lookupName n (stages.foldl (fun m st => upsert m (stageName st) (f st)) acc) =
      (match lastNamed n stages with
       | some st => some (f st)
       | none => lookupName n acc) := by
  induction stages with
  | nil => intro acc n; rfl
  | cons st rest ih =>
    intro acc n
    rw [List.foldl_cons, ih, lastNamed]
    cases h : lastNamed n rest with
    | some x => rfl
    | none =>
      rw [lookupName_upsert]
      by_cases hn : stageName st = n
      · simp [hn]
      · simp [hn]

theorem keysOf_foldl_mem (f : Stage → List String) (stages : List Stage) :
    ∀ acc n,
    (n ∈ keysOf (stages.foldl (fun m st => upsert m (stageName st) (f st)) acc)) ↔
      n ∈ keysOf acc ∨ n ∈ stages.map stageName := by
  induction stages with
  | nil => intro acc n; simp
  | cons st rest ih =>
    intro acc n
    rw [List.foldl_cons, ih, keysOf_upsert]
    split
    · next hmem =>
      simp only [List.map_cons, List.mem_cons]
      constructor
      · rintro (h | h)
        · exact Or.inl h
        · exact Or.inr (Or.inr h)
      · rintro (h | rfl | h)
        · exact Or.inl h
        · exact Or.inl hmem
        · exact Or.inr h
    · next hmem =>
      simp only [keysOf, List.map_append, List.map_cons, List.map_nil,
        List.mem_append, List.mem_cons, List.not_mem_nil, or_false,
        List.map_cons]
      constructor
      · rintro ((h | rfl) | h)
        · exact Or.inl h
        · exact Or.inr (Or.inl rfl)
        · exact Or.inr (Or.inr h)
      · rintro (h | rfl | h)
        · exact Or.inl (Or.inl h)
        · exact Or.inl (Or.inr rfl)
        · exact Or.inr h

theorem keysOf_foldl_nodup (f : Stage → List String) (stages : List Stage) :
    ∀ acc, (keysOf acc).Nodup →
    (keysOf (stages.foldl (fun m st => upsert m (stageName st) (f st)) acc)).Nodup := by
  induction stages with
  | nil => intro acc h; exact h
  | cons st rest ih =>
    intro acc h
    rw [List.foldl_cons]
    exact ih _ (keysOf_upsert_nodup acc _ _ h)

/-- Claim C6: over the order_nr-sorted stage list (with distinct display
names, and no explicit-`None` titles — the shapes the aggregation
tolerates), `group_companies_by_stage` produces one entry per stage in
ascending stage order, keyed by stage name, whose value is the sorted
duplicate-free list of trimmed non-empty deal titles of that stage
(membership iff some deal's title trims to it and it is non-empty); the
sort is a permutation of the fetched stages (full coverage), and a stage
with zero deals still contributes an entry with the empty list. -/
theorem c6_stage_aggregation (dealsOf : Nat → List Deal) (stages : List Stage)
    (hnull : ∀ st ∈ sortStages stages, ∀ d ∈ dealsOf st.id, d.title ≠ .null)
    (hnames : ((sortStages stages).map stageName).Nodup) :
    group_companies_by_stage dealsOf (sortStages stages) =
      .ok ((sortStages stages).map
        fun st => (stageName st, stageCompanies (dealsOf st.id))) ∧
    List.Sorted stageLe (sortStages stages) ∧
    (sortStages stages).Perm stages ∧
    (∀ st : Stage, (∀ t, t ∈ stageCompanies (dealsOf st.id) ↔
        ∃ d ∈ dealsOf st.id, ∃ s, d.title = .str s ∧ pyStrip s = t ∧ t ≠ "") ∧
      (stageCompanies (dealsOf st.id)).Nodup ∧
      List.Sorted (fun a b => pyStrLe a b = true) (stageCompanies (dealsOf st.id))) ∧
    (∀ st : Stage, dealsOf st.id = [] → stageCompanies (dealsOf st.id) = []) := by
  refine ⟨?_, List.sorted_insertionSort _ _, List.perm_insertionSort _ _, ?_, ?_⟩
  · rw [group_companies_by_stage, groupGo_ok dealsOf _ [] hnull,
      foldl_upsert_fresh _ _ [] hnames (by intro st _; simp [keysOf]),
      List.nil_append]
  · intro st
    exact ⟨stageCompanies_mem _, stageCompanies_nodup _, stageCompanies_sorted _⟩
  · intro st h
    rw [h]
    rfl

/-- Witness for C6, the spec's example: one stage with deals titled
`"A"`, `" A "`, `"B"`, `""` aggregates to exactly `["A", "B"]`. -/
theorem c6_stage_aggregation_witness :
    stageCompanies
      [⟨1, .str "A", some 1, .missing, .missing, .missing⟩,
       ⟨2, .str " A ", some 1, .missing, .missing, .missing⟩,
       ⟨3, .str "B", some 1, .missing, .missing, .missing⟩,
       ⟨4, .str "", some 1, .missing, .missing, .missing⟩] = ["A", "B"] ∧
    (group_companies_by_stage
        (fun _ =>
          [⟨1, .str "A", some 1, .missing, .missing, .missing⟩,
           ⟨2, .str " A ", some 1, .missing, .missing, .missing⟩,
           ⟨3, .str "B", some 1, .missing, .missing, .missing⟩,
           ⟨4, .str "", some 1, .missing, .missing, .missing⟩])
        (sortStages [⟨1, some "Lead", 0⟩]) =
      .ok ((sortStages [⟨1, some "Lead", 0⟩]).map
        fun st => (stageName st,
          stageCompanies
            [⟨1, .str "A", some 1, .missing, .missing, .missing⟩,
             ⟨2, .str " A ", some 1, .missing, .missing, .missing⟩,
             ⟨3, .str "B", some 1, .missing, .missing, .missing⟩,
             ⟨4, .str "", some 1, .missing, .missing, .missing⟩])) ∧
    List.Sorted stageLe (sortStages [⟨1, some "Lead", 0⟩]) ∧
    (sortStages [⟨1, some "Lead", 0⟩]).Perm [⟨1, some "Lead", 0⟩] ∧
    (∀ st : Stage, (∀ t, t ∈ stageCompanies
          [⟨1, .str "A", some 1, .missing, .missing, .missing⟩,
           ⟨2, .str " A ", some 1, .missing, .missing, .missing⟩,
           ⟨3, .str "B", some 1, .missing, .missing, .missing⟩,
           ⟨4, .str "", some 1, .missing, .missing, .missing⟩] ↔
        ∃ d ∈
          [⟨1, .str "A", some 1, .missing, .missing, .missing⟩,
           ⟨2, .str " A ", some 1, .missing, .missing, .missing⟩,
           ⟨3, .str "B", some 1, .missing, .missing, .missing⟩,
           ⟨4, .str "", some 1, .missing, .missing, .missing⟩],
          ∃ s, Deal.title d = .str s ∧ pyStrip s = t ∧ t ≠ "") ∧
      (stageCompanies
          [⟨1, .str "A", some 1, .missing, .missing, .missing⟩,
           ⟨2, .str " A ", some 1, .missing, .missing, .missing⟩,
           ⟨3, .str "B", some 1, .missing, .missing, .missing⟩,
           ⟨4, .str "", some 1, .missing, .missing, .missing⟩]).Nodup ∧
      List.Sorted (fun a b => pyStrLe a b = true) (stageCompanies
          [⟨1, .str "A", some 1, .missing, .missing, .missing⟩,
           ⟨2, .str " A ", some 1, .missing, .missing, .missing⟩,
           ⟨3, .str "B", some 1, .missing, .missing, .missing⟩,
           ⟨4, .str "", some 1, .missing, .missing, .missing⟩])) ∧
    (∀ st : Stage,
      ([⟨1, .str "A", some 1, .missing, .missing, .missing⟩,
        ⟨2, .str " A ", some 1, .missing, .missing, .missing⟩,
        ⟨3, .str "B", some 1, .missing, .missing, .missing⟩,
        ⟨4, .str "", some 1, .missing, .missing, .missing⟩] : List Deal) = [] →
        stageCompanies
          [⟨1, .str "A", some 1, .missing, .missing, .missing⟩,
           ⟨2, .str " A ", some 1, .missing, .missing, .missing⟩,
           ⟨3, .str "B", some 1, .missing, .missing, .missing⟩,
           ⟨4, .str "", some 1, .missing, .missing, .missing⟩] = [])) :=
  ⟨by decide,
   c6_stage_aggregation
     (fun _ =>
       [⟨1, .str "A", some 1, .missing, .missing, .missing⟩,
        ⟨2, .str " A ", some 1, .missing, .missing, .missing⟩,
        ⟨3, .str "B", some 1, .missing, .missing, .missing⟩,
        ⟨4, .str "", some 1, .missing, .missing, .missing⟩])
     [⟨1, some "Lead", 0⟩] (by decide) (by decide)⟩

/-- Claim C9: aggregation is not total over the tolerated deal shapes —
a deal dict mapping `title` to an explicit `None` makes the collection
loop (and hence `group_companies_by_stage`) raise instead of skipping the
deal, while an absent `title` key or an empty title string is skipped. -/
theorem c9_null_title_crash :
    companiesOfStage [⟨1, .null, some 1, .missing, .missing, .missing⟩] =
      .error () ∧
    group_companies_by_stage
      (fun _ => [⟨1, .null, some 1, .missing, .missing, .missing⟩])
      [⟨1, some "Lead", 0⟩] = .error () ∧
    companiesOfStage [⟨1, .absent, some 1, .missing, .missing, .missing⟩] =
      .ok [] ∧
    companiesOfStage [⟨1, .str "", some 1, .missing, .missing, .missing⟩] =
      .ok [] :=
  ⟨rfl, rfl, rfl, rfl⟩

/-- Claim C10: the StageMap is keyed by stage display name, not id: the
surviving value under each name is the company list of the *last*
same-named stage in iteration order, the keys are duplicate-free, one key
exists per distinct name occurring in the stage list, and when two stages
share a name the map has strictly fewer entries than there are stages. -/
theorem c10_stagemap_keyed_by_name (dealsOf : Nat → List Deal) (stages : List Stage)
    (hnull : ∀ st ∈ sortStages stages, ∀ d ∈ dealsOf st.id, d.title ≠ .null) :
    ∃ m, group_companies_by_stage dealsOf (sortStages stages) = .ok m ∧
      (∀ n, lookupName n m =
        (match lastNamed n (sortStages stages) with
         | some st => some (stageCompanies (dealsOf st.id))
         | none => none)) ∧
      (keysOf m).Nodup ∧
      (∀ n, n ∈ keysOf m ↔ n ∈ (sortStages stages).map stageName) ∧
      (¬ ((sortStages stages).map stageName).Nodup →
        m.length < (sortStages stages).length) := by
  have hok := groupGo_ok dealsOf (sortStages stages) [] hnull
  refine ⟨_, hok, ?_, ?_, ?_, ?_⟩
  · intro n
    rw [foldl_upsert_lookup]
    cases lastNamed n (sortStages stages) <;> rfl
  · exact keysOf_foldl_nodup _ _ [] (by simp [keysOf])
  · intro n
    rw [keysOf_foldl_mem]
    simp [keysOf]
  · intro hdup
    set m := (sortStages stages).foldl
      (fun acc st => upsert acc (stageName st) (stageCompanies (dealsOf st.id))) []
      with hm
    have h1 : (keysOf m).Nodup := keysOf_foldl_nodup _ _ [] (by simp [keysOf])
    have h2 : ∀ n, n ∈ keysOf m ↔ n ∈ (sortStages stages).map stageName := by
      intro n
      rw [hm, keysOf_foldl_mem]
      simp [keysOf]
    have hml : m.length = (keysOf m).length := (List.length_map _ _).symm
    have hcard : (keysOf m).length = (keysOf m).toFinset.card :=
      (List.toFinset_card_of_nodup h1).symm
    have hsubset : (keysOf m).toFinset ⊆ ((sortStages stages).map stageName).toFinset := by
      intro n hn
      rw [List.mem_toFinset] at hn ⊢
      exact (h2 n).1 hn
    have hdl : ((sortStages stages).map stageName).toFinset.card =
        ((sortStages stages).map stageName).dedup.length :=
      List.card_toFinset _
    have hlt : ((sortStages stages).map stageName).dedup.length <
        ((sortStages stages).map stageName).length := by
      have hsub := List.dedup_sublist ((sortStages stages).map stageName)
      rcases lt_or_eq_of_le hsub.length_le with h | h
      · exact h
      · exfalso
        have heq := hsub.eq_of_length h
        exact hdup (heq ▸ List.nodup_dedup _)
    calc m.length = (keysOf m).toFinset.card := hml.trans hcard
      _ ≤ ((sortStages stages).map stageName).toFinset.card :=
        Finset.card_le_card hsubset
      _ < ((sortStages stages).map stageName).length := hdl ▸ hlt
      _ = (sortStages stages).length := List.length_map _ _

/-- Witness for C10: two stages both named `"Lead"`; the resulting map
has a single entry whose value is the later stage's companies. -/
theorem c10_stagemap_keyed_by_name_witness :
    group_companies_by_stage
        (fun i => if i = 1
          then [⟨1, .str "Acme", some 1, .missing, .missing, .missing⟩]
          else if i = 2
          then [⟨2, .str "Globex", some 2, .missing, .missing, .missing⟩]
          else [])
        (sortStages [⟨1, some "Lead", 0⟩, ⟨2, some "Lead", 1⟩]) =
      .ok [("Lead", ["Globex"])] ∧
    ¬ ((sortStages [⟨1, some "Lead", 0⟩, ⟨2, some "Lead", 1⟩]).map stageName).Nodup ∧
    (∃ m, group_companies_by_stage
        (fun i => if i = 1
          then [⟨1, .str "Acme", some 1, .missing, .missing, .missing⟩]
          else if i = 2
          then [⟨2, .str "Globex", some 2, .missing, .missing, .missing⟩]
          else [])
        (sortStages [⟨1, some "Lead", 0⟩, ⟨2, some "Lead", 1⟩]) = .ok m ∧
      (∀ n, lookupName n m =
        (match lastNamed n (sortStages [⟨1, some "Lead", 0⟩, ⟨2, some "Lead", 1⟩]) with
         | some st => some (stageCompanies
            ((fun i => if i = 1
              then [⟨1, .str "Acme", some 1, .missing, .missing, .missing⟩]
              else if i = 2
              then [⟨2, .str "Globex", some 2, .missing, .missing, .missing⟩]
              else []) st.id))
         | none => none)) ∧
      (keysOf m).Nodup ∧
      (∀ n, n ∈ keysOf m ↔
        n ∈ (sortStages [⟨1, some "Lead", 0⟩, ⟨2, some "Lead", 1⟩]).map stageName) ∧
      (¬ ((sortStages [⟨1, some "Lead", 0⟩, ⟨2, some "Lead", 1⟩]).map stageName).Nodup →
        m.length <
          (sortStages [⟨1, some "Lead", 0⟩, ⟨2, some "Lead", 1⟩]).length)) :=
  ⟨rfl, by decide,
   c10_stagemap_keyed_by_name
     (fun i => if i = 1
       then [⟨1, .str "Acme", some 1, .missing, .missing, .missing⟩]
       else if i = 2
       then [⟨2, .str "Globex", some 2, .missing, .missing, .missing⟩]
       else [])
     [⟨1, some "Lead", 0⟩, ⟨2, some "Lead", 1⟩] (by decide)⟩

/-! ## Narrative generation (`llm_reporter.generate_report`,
llm_reporter.py:11-57, and the summary fallback of main.py:528-536)

The Gemini collaborator is two oracles: `setup` (the
`genai.configure` + model construction at the top of the `try`) and `gen`
(`generate_content` plus reading `response.text`); any exception in
either is caught by the blanket `except` and replaced by the fallback
string. -/

def llmFallbackNoKey : String :=
  "（LLMレポート機能は無効化されています: GOOGLE_API_KEYが設定されていません）"

def llmFallbackError : String := "（レポート生成中にエラーが発生しました）"

def llmNoDeals : String := "本日は案件がありません。新規開拓に注力しましょう！"

/-- `has_deals` of llm_reporter.py:37-41. -/
def hasDeals (sm : List (String × List String)) : Bool :=
  sm.any fun p => p.2 ≠ []

/-- `generate_report` (llm_reporter.py:11). A missing (or falsy) API key
short-circuits to the disabled-feature fallback before the `try`; inside
the `try`, a stage map with no deals returns the no-deals text before
calling the backend; a backend exception yields the error fallback. -/
def generate_report (apiKey : Option String) (setup : Except Unit Unit)
    (gen : Except Unit String) (sm : List (String × List String)) : String :=
  match apiKey with
  | none => llmFallbackNoKey
  | some _ =>
    match setup with
    | .error _ => llmFallbackError
    | .ok _ =>
      if hasDeals sm then
        match gen with
        | .error _ => llmFallbackError
        | .ok t => t
      else llmNoDeals

/-- The enhanced branch's summary (main.py:530-536):
`generate_pipeline_summary` result, or on any exception the deterministic
count-based fallback. -/
def mainSummary (gen : Except Unit String) (sm : List (String × List String)) :
    String :=
  match gen with
  | .ok s => s
  | .error _ =>
    "本日のパイプラインには合計 " ++ toString (totalCompanies sm) ++
      " 社の案件があります。詳細はスレッドをご確認ください。"

theorem sendOk_summary_independent (tr : List PostResult) (s s' : String)
    (sm : List (String × List String)) :
    (send_to_slack_with_thread tr s sm).ok =
      (send_to_slack_with_thread tr s' sm).ok := by
  rw [send_to_slack_with_thread, send_to_slack_with_thread]
  cases tr.headD .err with
  | err => rfl
  | resp ok e ts => cases ok <;> rfl

/-- Claim C8: narrative generation never fails the run. Absent
credentials yield the deterministic disabled-feature fallback; a backend
error at setup or generation yields the deterministic error fallback; the
enhanced `main` replaces a failed summary by the deterministic count
fallback; and the run's exit code does not depend on the narrative
outcome at all. -/
theorem c8_narrative_never_fatal (sm : List (String × List String))
    (k : String) (setup : Except Unit Unit) (gen : Except Unit String) :
    (generate_report none setup gen sm = llmFallbackNoKey) ∧
    (setup = .error () → generate_report (some k) setup gen sm = llmFallbackError) ∧
    (gen = .error () → hasDeals sm = true →
      generate_report (some k) (.ok ()) gen sm = llmFallbackError) ∧
    (mainSummary (.error ()) sm =
      "本日のパイプラインには合計 " ++ toString (totalCompanies sm) ++
        " 社の案件があります。詳細はスレッドをご確認ください。") ∧
    (∀ tr, mainEnhancedExit tr (mainSummary gen sm) sm =
      mainEnhancedExit tr (mainSummary (.error ()) sm) sm) := by
  refine ⟨rfl, ?_, ?_, rfl, ?_⟩
  · rintro rfl; rfl
  · rintro rfl hd
    simp [generate_report, hd]
  · intro tr
    rw [mainEnhancedExit, mainEnhancedExit,
      sendOk_summary_independent tr (mainSummary gen sm) (mainSummary (.error ()) sm)]

/-- Witness for C8: one stage with one deal, key present, setup fine,
generation failing. -/
theorem c8_narrative_never_fatal_witness :
    (generate_report none (.ok ()) (.error ()) [("Lead", ["Acme"])] =
      llmFallbackNoKey) ∧
    (Except.error () = (.error () : Except Unit Unit) →
      generate_report (some "key") (.error ()) (.error ()) [("Lead", ["Acme"])] =
        llmFallbackError) ∧
    (Except.error () = (.error () : Except Unit String) →
      hasDeals [("Lead", ["Acme"])] = true →
      generate_report (some "key") (.ok ()) (.error ()) [("Lead", ["Acme"])] =
        llmFallbackError) ∧
    (mainSummary (.error ()) [("Lead", ["Acme"])] =
      "本日のパイプラインには合計 " ++ toString (totalCompanies [("Lead", ["Acme"])]) ++
        " 社の案件があります。詳細はスレッドをご確認ください。") ∧
    (∀ tr, mainEnhancedExit tr (mainSummary (.error ()) [("Lead", ["Acme"])])
        [("Lead", ["Acme"])] =
      mainEnhancedExit tr (mainSummary (.error ()) [("Lead", ["Acme"])])
        [("Lead", ["Acme"])]) :=
  c8_narrative_never_fatal [("Lead", ["Acme"])] "key" (.error ()) (.error ())
